import Mathlib

/-!
Verification of the Vwire Arduino library core subsystems.

This file gives a shallow embedding, in Lean 4, of the three core
subsystems of the vwire-arduino library, translated from the C++
sources:

* the reliable-delivery queue (`VwireClass` in `src/Vwire.cpp`:
  `_sendWithReliableDelivery`, `_processRetries`, `_handleAck`,
  `getPendingCount`, `_findPendingSlot`, `_removePending`),
* the GPIO pin manager (`VwireGPIOManager`),
* the software timer (`VwireTimer`).

Machine integers are modelled as `Nat`/`Int` with explicit reduction
modulo `2^w` where the C code relies on fixed-width wraparound
(`unsigned long` timestamps, `uint8_t` retry counters, `uint32_t`
message-id counter, `int16_t` stored pin values).  Hardware side
effects (MQTT publishes, callback invocations, `digitalWrite`,
`ledcWrite`, ...) are modelled as explicit event lists returned next to
the updated state.  Per-slot loops whose iterations touch only the
slot at hand are embedded as maps over the slot table, with the event
lists concatenated in slot-index order, which is exactly the order the
C loops produce.
-/

namespace Vwire

/-- Modulus of the C type `unsigned long` / `uint32_t` on the ESP32-class
targets of this library (32-bit). -/
def U32 : Nat := 4294967296

/-- Wraparound 32-bit unsigned subtraction `a - b`, as computed by C on
`unsigned long` operands.  Used by the ACK-timeout check
(`now - sentAt` in `VwireClass::_processRetries`) and the timer
due-check (`currentMillis - lastTriggered` in `VwireTimer::run`). -/
def usub32 (a b : Nat) : Nat := (a % U32 + (U32 - b % U32)) % U32

/-- Single hexadecimal digit as produced by `printf %X` (uppercase). -/
def hexDigit (n : Nat) : Char :=
  if n < 10 then Char.ofNat (48 + n) else Char.ofNat (55 + n)

/-- Four-digit zero-padded uppercase hex rendering of a value `< 65536`,
as produced by the `%04X` conversion in `_sendWithReliableDelivery`. -/
def hex4 (n : Nat) : String :=
  String.mk [hexDigit (n / 4096 % 16), hexDigit (n / 256 % 16),
             hexDigit (n / 16 % 16), hexDigit (n % 16)]

/-- Message-id string built by `VwireClass::_sendWithReliableDelivery`:
`snprintf("%04X_%lu", (uint16_t)(_msgIdCounter & 0xFFFF), millis() % 10000)`.
The result is at most 9 characters, so the 16-byte `msgId` buffer never
truncates it. -/
def formatMsgId (counter now : Nat) : String :=
  hex4 (counter % 65536) ++ "_" ++ Nat.repr (now % 10000)

/-- Reliable-delivery JSON payload
`{"msgId":"...","pin":"V<n>","value":"..."}` as built by
`_sendWithReliableDelivery` and rebuilt identically by
`_processRetries`. -/
def payloadFor (msgId : String) (pin : Nat) (value : String) : String :=
  "\x7b\"msgId\":\"" ++ msgId ++ "\",\"pin\":\"V" ++ Nat.repr pin ++
    "\",\"value\":\"" ++ value ++ "\"\x7d"

/-- Topic `vwire/<deviceId>/data` used for reliable publishes. -/
def dataTopic (deviceId : String) : String := "vwire/" ++ deviceId ++ "/data"

/-- Truncation performed by `strncpy(dst, src, n)` into an
`n+1`-byte zero-filled buffer: keep the first `n` characters. -/
def strTrunc (n : Nat) (s : String) : String := String.mk (s.data.take n)

/-- One slot of the fixed-size pending table
(`VwireClass::PendingMessage`). -/
structure PendingMessage where
  msgId : String
  pin : Nat
  value : String
  sentAt : Nat
  retries : Nat
  active : Bool
deriving DecidableEq

/-- Zero-initialised pending slot (the constructor runs
`memset(_pendingMessages, 0, ...)`). -/
def emptyPending : PendingMessage :=
  { msgId := "", pin := 0, value := "", sentAt := 0, retries := 0, active := false }

/-- Error codes of the library (`VwireError` in `VwireConfig.h`). -/
inductive VwireError where
  | errNone | noToken | wifiFailed | mqttFailed | notConnected
  | invalidPin | bufferFull | handlerFull | errTimeout | sslFailed | queueFull
deriving DecidableEq

/-- Compile-time pending-table capacity
(`VWIRE_MAX_PENDING_MESSAGES` in `VwireConfig.h`). -/
def maxPendingMessages : Nat := 10

/-- The reliable-delivery-relevant state of `VwireClass`: the pending
table, the `uint32_t` message-id counter, the settings consulted by the
retry loop, and the last error code set via `_setError`. -/
structure VwireState where
  pendingMessages : List PendingMessage
  msgIdCounter : Nat
  ackTimeout : Nat
  maxRetries : Nat
  deviceId : String
  lastError : VwireError
deriving DecidableEq

/-- Observable effects of the reliable-delivery routines: an MQTT
publish (`beginPublish`/`print`/`endPublish`) or an invocation of the
registered delivery callback. -/
inductive VwireEvent where
  | publish (topic payload : String)
  | deliveryCb (msgId : String) (success : Bool)
deriving DecidableEq

/-- Initial state: constructor zero-fills the pending table and the
counter; `ackTimeout` (an `unsigned long`) and `maxRetries` (a `uint8_t`)
come from the settings. -/
def initVwire (ackTimeout maxRetries : Nat) (deviceId : String) : VwireState :=
  { pendingMessages := List.replicate maxPendingMessages emptyPending
  , msgIdCounter := 0
  , ackTimeout := ackTimeout % U32
  , maxRetries := maxRetries % 256
  , deviceId := deviceId
  , lastError := VwireError.errNone }

/-- Index of the first free slot (`VwireClass::_findPendingSlot`);
`none` models the `-1` queue-full result. -/
def findPendingSlot (ms : List PendingMessage) : Option Nat :=
  ms.findIdx? (fun m => !m.active)

/-- Replace the slot at index `i` by its deactivated copy
(`_pendingMessages[i].active = false`). -/
def deactivateAt (ms : List PendingMessage) (i : Nat) : List PendingMessage :=
  match ms.get? i with
  | some m => ms.set i { m with active := false }
  | none => ms

/-- Count of active pending slots (`VwireClass::getPendingCount`). -/
def getPendingCount (s : VwireState) : Nat :=
  s.pendingMessages.countP (fun m => m.active)

/-- Embedding of `VwireClass::_sendWithReliableDelivery(pin, value)`
called when `millis()` reads `now`.  On a full table it sets
`VWIRE_ERR_QUEUE_FULL` and invokes the delivery callback with the
sentinel id `"queue_full"`, without touching the table or the counter.
Otherwise it increments the counter, generates the message id, fills
the slot and publishes the payload once. -/
def sendWithReliableDelivery (pin : Nat) (value : String) (now : Nat)
    (s : VwireState) : VwireState × List VwireEvent :=
  match findPendingSlot s.pendingMessages with
  | Option.none =>
      ({ s with lastError := VwireError.queueFull },
       [VwireEvent.deliveryCb "queue_full" false])
  | some slot =>
      let counter := (s.msgIdCounter + 1) % U32
      let mid := formatMsgId counter now
      let m : PendingMessage :=
        { msgId := mid, pin := pin % 256, value := strTrunc 63 value
        , sentAt := now % U32, retries := 0, active := true }
      ({ s with msgIdCounter := counter
              , pendingMessages := s.pendingMessages.set slot m },
       [VwireEvent.publish (dataTopic s.deviceId)
          (payloadFor mid (pin % 256) (strTrunc 63 value))])

/-- Embedding of `VwireClass::_handleAck(msgId, success)`: deactivate
the first active slot whose id matches (`strcmp == 0`) and invoke the
delivery callback once; an unmatched ACK only produces a debug log,
leaving the state untouched. -/
def handleAck (msgId : String) (success : Bool) (s : VwireState) :
    VwireState × List VwireEvent :=
  match s.pendingMessages.findIdx? (fun m => m.active && m.msgId == msgId) with
  | Option.none => (s, [])
  | some i =>
      ({ s with pendingMessages := deactivateAt s.pendingMessages i },
       [VwireEvent.deliveryCb msgId success])

/-- Body of the `_processRetries` loop for one slot: skip inactive
slots; when the ACK timeout has elapsed either retry (increment the
`uint8_t` retry counter, reset `sentAt`, re-publish the identical
payload) or, once `retries` has reached `maxRetries`, invoke the
failure callback and free the slot. -/
def retryStep (ackTimeout maxRetries : Nat) (deviceId : String) (now : Nat)
    (m : PendingMessage) : PendingMessage × List VwireEvent :=
  if !m.active then (m, [])
  else if usub32 now m.sentAt ≥ ackTimeout then
    if m.retries < maxRetries then
      ({ m with retries := (m.retries + 1) % 256, sentAt := now % U32 },
       [VwireEvent.publish (dataTopic deviceId) (payloadFor m.msgId m.pin m.value)])
    else
      ({ m with active := false }, [VwireEvent.deliveryCb m.msgId false])
  else (m, [])

/-- Embedding of `VwireClass::_processRetries()` at time `now`: the C
loop visits slots in index order and each iteration reads and writes
only the slot at hand (plus the constant settings), so it is embedded
as a map over the table with the per-slot events concatenated in index
order. -/
def processRetries (now : Nat) (s : VwireState) : VwireState × List VwireEvent :=
  let rs := s.pendingMessages.map (retryStep s.ackTimeout s.maxRetries s.deviceId now)
  ({ s with pendingMessages := rs.map Prod.fst }, (rs.map Prod.snd).flatten)

def c1msg (r s : Nat) : PendingMessage :=
  { msgId := formatMsgId 1 0, pin := 5, value := "val", sentAt := s, retries := r, active := true }

def c1state (T r s : Nat) : VwireState :=
  { pendingMessages := c1msg r s :: List.replicate 9 emptyPending
  , msgIdCounter := 1, ackTimeout := T, maxRetries := 3
  , deviceId := "dev", lastError := VwireError.errNone }

def c1send (T : Nat) := sendWithReliableDelivery 5 "val" 0 (initVwire T 3 "dev")

def c1r1 (T : Nat) := processRetries T (c1send T).1
def c1r2 (T : Nat) := processRetries (2 * T) (c1r1 T).1
def c1r3 (T : Nat) := processRetries (3 * T) (c1r2 T).1
def c1r4 (T : Nat) := processRetries (4 * T) (c1r3 T).1

def c2s1 : VwireState := (sendWithReliableDelivery 0 "42" 0 (initVwire 5000 3 "dev")).1

def c2s2 : VwireState := (handleAck (formatMsgId 1 0) true c2s1).1

def c3s10 : VwireState :=
  (fun s => (sendWithReliableDelivery 0 "v" 0 s).1)^[10] (initVwire 5000 3 "dev")

def c4victim : PendingMessage :=
  { msgId := formatMsgId 1 0, pin := 0, value := "v", sentAt := 0, retries := 0, active := true }

def c4s1 : VwireState := (sendWithReliableDelivery 0 "v" 0 (initVwire 5000 3 "dev")).1

def c4step (s : VwireState) : VwireState :=
  (handleAck (formatMsgId ((s.msgIdCounter + 1) % U32) 1) true
    (sendWithReliableDelivery 0 "v" 1 s).1).1

def C4Inv (k : Nat) (s : VwireState) : Prop :=
  s.msgIdCounter = k ∧
  ∃ j : PendingMessage, j.active = false ∧
    s.pendingMessages = c4victim :: j :: List.replicate 8 emptyPending

inductive Reach : Nat → VwireState → Prop where
  | init (a r : Nat) (d : String) : Reach 0 (initVwire a r d)
  | send (n : Nat) (s : VwireState) (p : Nat) (v : String) (now : Nat) :
      Reach n s → Reach (n + 1) (sendWithReliableDelivery p v now s).1
  | ack (n : Nat) (s : VwireState) (id : String) (b : Bool) :
      Reach n s → Reach n (handleAck id b s).1
  | retry (n : Nat) (s : VwireState) (now : Nat) :
      Reach n s → Reach n (processRetries now s).1

def SlotWitness (n : Nat) (m : PendingMessage) : Prop :=
  m.active = true → ∃ c t, 1 ≤ c ∧ c ≤ n ∧ m.msgId = formatMsgId c t

def TableOk (n : Nat) (ms : List PendingMessage) : Prop :=
  ∀ k : Nat, ∀ m ∈ ms.get? k, SlotWitness n m

def IdsDistinct (ms : List PendingMessage) : Prop :=
  ∀ i j : Nat, i < j → ∀ mi ∈ ms.get? i, ∀ mj ∈ ms.get? j,
    mi.active = true → mj.active = true → mi.msgId ≠ mj.msgId

def Weakens (m m2 : PendingMessage) : Prop :=
  m2.msgId = m.msgId ∧ (m2.active = true → m.active = true)

def ReliableInv (n : Nat) (s : VwireState) : Prop :=
  s.msgIdCounter ≤ n ∧ TableOk s.msgIdCounter s.pendingMessages ∧
    IdsDistinct s.pendingMessages

/-- Pin modes of the GPIO manager (`VwireGPIOMode` in `VwireGPIO.h`). -/
inductive VwireGPIOMode where
  | output | input | inputPullup | pwm | analogInput | disabled
deriving DecidableEq

/-- One managed pin slot (`struct VwireGPIOPin`): name buffer `char[6]`,
resolved GPIO number (`uint8_t`), mode, read interval (`uint16_t`),
last-read timestamp (`unsigned long`), last value (`int16_t`, modelled as
an `Int` in `[-32768, 32767]`), active flag and runtime flags. -/
structure VwireGPIOPin where
  pinName : String
  gpioNumber : Nat
  mode : VwireGPIOMode
  readInterval : Nat
  lastRead : Nat
  lastValue : Int
  active : Bool
  flags : Nat
deriving DecidableEq

/-- Truncation of a C `int` to `int16_t` (two's complement), as happens
when `VwireGPIOManager::handleCommand` stores the raw command value into
the `int16_t lastValue` field. -/
def toInt16 (v : Int) : Int := (v + 32768) % 65536 - 32768

/-- Slot state established by the `VwireGPIOManager` constructor:
inactive, `lastValue = -32768` (the "never read" sentinel that forces a
first publish), `lastRead = 0`, `flags = 0`. -/
def emptyGpioPin : VwireGPIOPin :=
  { pinName := "", gpioNumber := 0, mode := VwireGPIOMode.disabled
  , readInterval := 0, lastRead := 0, lastValue := -32768
  , active := false, flags := 0 }

/-- Compile-time GPIO table capacity (`VWIRE_MAX_GPIO_PINS`); the value
is platform-dependent (24 on ESP32, 12 on ESP8266, 16 otherwise) - the
generic default 16 is used here, no claim depends on the exact bound. -/
def maxGpioPins : Nat := 16

/-- The state of `VwireGPIOManager`: the fixed slot table and the
`uint8_t` running count of active pins. -/
structure VwireGPIOManager where
  pins : List VwireGPIOPin
  count : Nat
deriving DecidableEq

/-- Freshly constructed manager. -/
def initGpio : VwireGPIOManager :=
  { pins := List.replicate maxGpioPins emptyGpioPin, count := 0 }

/-- ASCII `toupper` as applied by the manager (`toupper(*c)`); pin names
are ASCII, for which the C-locale `toupper` maps exactly `a`-`z` to
`A`-`Z`. -/
def toUpperChar (c : Char) : Char :=
  if 97 ≤ c.toNat ∧ c.toNat ≤ 122 then Char.ofNat (c.toNat - 32) else c

/-- The case-insensitive name comparison loop of
`VwireGPIOManager::_findPin`: walk both strings while both have
characters, comparing uppercased characters, and require both to end
together. -/
def nameEq (a b : List Char) : Bool :=
  match a, b with
  | [], [] => true
  | x :: xs, y :: ys => if toUpperChar x = toUpperChar y then nameEq xs ys else false
  | _, _ => false

/-- Index of the first active slot whose name matches case-insensitively
(`VwireGPIOManager::_findPin`); `none` models `-1`. -/
def findPin (name : String) (g : VwireGPIOManager) : Option Nat :=
  g.pins.findIdx? (fun p => p.active && nameEq p.pinName.data name.data)

/-- First free slot (`VwireGPIOManager::_findFreeSlot`). -/
def findFreeSlot (g : VwireGPIOManager) : Option Nat :=
  g.pins.findIdx? (fun p => !p.active)

/-- Read-interval clamping in `addPin`: `0` selects the default
`VWIRE_GPIO_READ_INTERVAL` (1000 ms), otherwise clamp to
`[VWIRE_GPIO_MIN_READ_INTERVAL, VWIRE_GPIO_MAX_READ_INTERVAL]`
(100..60000 ms). -/
def clampInterval (readInterval : Nat) : Nat :=
  if readInterval = 0 then 1000
  else if readInterval < 100 then 100
  else if readInterval > 60000 then 60000
  else readInterval

/-- Name as stored in the slot: `strncpy` into the 6-byte buffer keeps
at most 5 characters, then the buffer is uppercased in place. -/
def storedName (name : String) : String :=
  String.mk ((name.data.take 5).map toUpperChar)

/-- Embedding of the 4-argument
`VwireGPIOManager::addPin(pinName, gpioNumber, mode, readInterval)`:
update the existing case-insensitive match in place, otherwise take the
first free slot (failing when the table is full).  The written slot gets
the uppercased truncated name, the resolved GPIO number (a `uint8_t`),
the clamped interval, and reset runtime state (`lastValue = -32768`,
`lastRead = 0`, `flags = 0`).  The `pinMode` hardware call of
`_applyHardwareMode` has no effect on manager state and is not
tracked. -/
def addPinG (name : String) (gpioNumber : Nat) (mode : VwireGPIOMode)
    (readInterval : Nat) (g : VwireGPIOManager) : VwireGPIOManager × Bool :=
  let slotVal : VwireGPIOPin :=
    { pinName := storedName name, gpioNumber := gpioNumber % 256, mode := mode
    , readInterval := clampInterval readInterval, lastRead := 0
    , lastValue := -32768, active := true, flags := 0 }
  match findPin name g with
  | some idx => ({ g with pins := g.pins.set idx slotVal }, true)
  | Option.none =>
      match findFreeSlot g with
      | Option.none => (g, false)
      | some idx =>
          ({ g with pins := g.pins.set idx slotVal
                  , count := (g.count + 1) % 256 }, true)

/-- Digit run of C `atoi` (no leading-whitespace handling; the callers
pass name suffixes with no whitespace). -/
def atoiDigits (l : List Char) (acc : Int) : Int :=
  match l with
  | [] => acc
  | c :: rest =>
      if 48 ≤ c.toNat ∧ c.toNat ≤ 57 then
        atoiDigits rest (acc * 10 + (c.toNat - 48 : Nat))
      else acc

/-- C `atoi` with optional sign. -/
def atoi (l : List Char) : Int :=
  match l with
  | '-' :: rest => - atoiDigits rest 0
  | '+' :: rest => atoiDigits rest 0
  | _ => atoiDigits l 0

/-- Embedding of `VwireGPIOManager::_resolvePinNumber` for the generic
(non-ESP8266) platform branch: `D<n>` and `A<n>` resolve to `n` cast to
`uint8_t`; unknown prefixes and the empty name give the sentinel 255. -/
def resolvePinNumber (name : String) : Nat :=
  match name.data with
  | [] => 255
  | c :: rest =>
      if toUpperChar c = 'D' then ((atoi rest).emod 256).toNat
      else if toUpperChar c = 'A' then ((atoi rest).emod 256).toNat
      else 255

/-- The 3-argument `addPin(pinName, mode, readInterval)`: resolve the
name first, fail on the 255 sentinel. -/
def addPin (name : String) (mode : VwireGPIOMode) (readInterval : Nat)
    (g : VwireGPIOManager) : VwireGPIOManager × Bool :=
  let gpio := resolvePinNumber name
  if gpio = 255 then (g, false) else addPinG name gpio mode readInterval g

/-- Embedding of `VwireGPIOManager::removePin`. -/
def removePin (name : String) (g : VwireGPIOManager) : VwireGPIOManager × Bool :=
  match findPin name g with
  | Option.none => (g, false)
  | some idx =>
      match g.pins.get? idx with
      | Option.none => (g, false)
      | some p =>
          ({ g with pins := g.pins.set idx { p with active := false }
                  , count := (g.count + 255) % 256 }, true)

/-- Embedding of `VwireGPIOManager::clearAll`. -/
def clearAll (g : VwireGPIOManager) : VwireGPIOManager :=
  { g with pins := g.pins.map (fun p => { p with active := false }), count := 0 }

/-- `VwireGPIOManager::getPinCount`. -/
def getPinCount (g : VwireGPIOManager) : Nat := g.count

/-- `VwireGPIOManager::getPinValue`: the stored `lastValue` of the
matching pin, `-1` when the name is unknown. -/
def getPinValue (name : String) (g : VwireGPIOManager) : Int :=
  match findPin name g with
  | Option.none => -1
  | some idx =>
      match g.pins.get? idx with
      | some p => p.lastValue
      | Option.none => -1

/-- Hardware calls issued by `_writeHardware` (ESP32 Arduino-core 2.x
branch, the variant that exercises the PWM-channel runtime flags). -/
inductive GpioHwEvent where
  | ledcDetach (gpio : Nat)
  | pinModeOutput (gpio : Nat)
  | digitalWrite (gpio : Nat) (high : Bool)
  | ledcSetup (channel freq resolution : Nat)
  | ledcAttach (gpio channel : Nat)
  | ledcWrite (channel : Nat) (duty : Int)
deriving DecidableEq

/-- Arduino `constrain(value, low, high)` macro. -/
def constrain (v lo hi : Int) : Int := if v < lo then lo else if v > hi then hi else v

/-- Embedding of `VwireGPIOManager::_writeHardware` (ESP32 Core 2.x
branch): clamp to `[0,255]`; values 0/1 perform a digital write, first
detaching a previously attached ledc channel (tracked in bit 0 of
`flags`); values 2-255 perform a ledc PWM write, lazily setting up the
channel (the channel number is the slot index) on first use. -/
def writeHardware (p : VwireGPIOPin) (channel : Nat) (v : Int) :
    VwireGPIOPin × List GpioHwEvent :=
  let value := constrain v 0 255
  if value ≤ 1 then
    if p.flags % 2 = 1 then
      ({ p with flags := p.flags - 1 },
       [GpioHwEvent.ledcDetach p.gpioNumber, GpioHwEvent.pinModeOutput p.gpioNumber,
        GpioHwEvent.digitalWrite p.gpioNumber (value != 0)])
    else
      (p, [GpioHwEvent.digitalWrite p.gpioNumber (value != 0)])
  else
    if p.flags % 2 = 0 then
      ({ p with flags := p.flags + 1 },
       [GpioHwEvent.ledcSetup channel 5000 8, GpioHwEvent.ledcAttach p.gpioNumber channel,
        GpioHwEvent.ledcWrite channel value])
    else
      (p, [GpioHwEvent.ledcWrite channel value])

/-- Embedding of `VwireGPIOManager::handleCommand(pinName, value)`:
reject unknown names and non-output modes; otherwise run the smart
write and record the raw value in the `int16_t lastValue` field. -/
def handleCommand (name : String) (v : Int) (g : VwireGPIOManager) :
    VwireGPIOManager × Bool × List GpioHwEvent :=
  match findPin name g with
  | Option.none => (g, false, [])
  | some idx =>
      match g.pins.get? idx with
      | Option.none => (g, false, [])
      | some p =>
          if p.mode ≠ VwireGPIOMode.output ∧ p.mode ≠ VwireGPIOMode.pwm then
            (g, false, [])
          else
            let r := writeHardware p idx v
            ({ g with pins := g.pins.set idx { r.1 with lastValue := toInt16 v } },
             true, r.2)

/-- Input-mode test used by the poll loop. -/
def isInputMode (m : VwireGPIOMode) : Bool :=
  m = VwireGPIOMode.input || m = VwireGPIOMode.inputPullup || m = VwireGPIOMode.analogInput

/-- Body of the `poll` loop for one slot, with the hardware read
(`digitalRead`/`analogRead`) supplied by the oracle `readFn`: skip
inactive and non-input pins; skip pins whose per-pin interval has not
elapsed (unsigned 32-bit subtraction); otherwise stamp `lastRead`, read,
and publish exactly when the value differs from `lastValue`. -/
def pollStep (now : Nat) (readFn : VwireGPIOPin → Int) (p : VwireGPIOPin) :
    VwireGPIOPin × List (String × Int) :=
  if !p.active then (p, [])
  else if !isInputMode p.mode then (p, [])
  else if usub32 now p.lastRead < p.readInterval then (p, [])
  else
    let p1 := { p with lastRead := now % U32 }
    let value := readFn p
    if value ≠ p.lastValue then
      ({ p1 with lastValue := toInt16 value }, [(p.pinName, value)])
    else (p1, [])

/-- Embedding of `VwireGPIOManager::poll(publishFn)` at time `now`: an
early return when no pin is configured, else the slot loop; iterations
are independent per slot, so the loop is a map with events concatenated
in index order.  The publish callback is modelled as the returned
event list. -/
def poll (now : Nat) (readFn : VwireGPIOPin → Int) (g : VwireGPIOManager) :
    VwireGPIOManager × List (String × Int) :=
  if g.count = 0 then (g, [])
  else
    let rs := g.pins.map (pollStep now readFn)
    ({ g with pins := rs.map Prod.fst }, (rs.map Prod.snd).flatten)

def isDigitalEv : GpioHwEvent → Bool
  | GpioHwEvent.digitalWrite _ _ => true
  | _ => false

def isPwmEv : GpioHwEvent → Bool
  | GpioHwEvent.ledcWrite _ _ => true
  | _ => false

def c5g (mode : VwireGPIOMode) : VwireGPIOManager := (addPin "D2" mode 0 initGpio).1

def pinD2 (mode : VwireGPIOMode) : VwireGPIOPin :=
  { pinName := "D2", gpioNumber := 2, mode := mode, readInterval := 1000
  , lastRead := 0, lastValue := -32768, active := true, flags := 0 }

def NamesUnique (g : VwireGPIOManager) : Prop :=
  ∀ i j : Nat, i < j → ∀ pi ∈ g.pins.get? i, ∀ pj ∈ g.pins.get? j,
    pi.active = true → pj.active = true →
    nameEq pi.pinName.data pj.pinName.data = false

inductive GpioOp where
  | add (name : String) (mode : VwireGPIOMode) (interval : Nat)
  | addG (name : String) (gpio : Nat) (mode : VwireGPIOMode) (interval : Nat)
  | remove (name : String)
  | clear

def shortName : GpioOp → Prop
  | GpioOp.add n _ _ => n.length ≤ 5
  | GpioOp.addG n _ _ _ => n.length ≤ 5
  | GpioOp.remove _ => True
  | GpioOp.clear => True

def applyGpioOp (o : GpioOp) (g : VwireGPIOManager) : VwireGPIOManager :=
  match o with
  | GpioOp.add n m i => (addPin n m i g).1
  | GpioOp.addG n gp m i => (addPinG n gp m i g).1
  | GpioOp.remove n => (removePin n g).1
  | GpioOp.clear => clearAll g

def runGpioOps (os : List GpioOp) : VwireGPIOManager :=
  os.foldl (fun g o => applyGpioOp o g) initGpio

def c8d4 : VwireGPIOManager :=
  (addPin "D4" VwireGPIOMode.output 300
    (addPin "d4" VwireGPIOMode.input 500 initGpio).1).1

def c8dup : VwireGPIOManager :=
  (addPin "D1234X" VwireGPIOMode.output 0
    (addPin "D1234X" VwireGPIOMode.output 0 initGpio).1).1

/-- Modelled from the spec: `VwireTimer.h` is not among the sources (only
`VwireTimer.cpp` is); the compile-time slot-table capacity
`VWIRE_MAX_TIMERS` is "platform-dependent" per the spec and is fixed
here at 10 (no claim depends on the exact bound). -/
def maxTimers : Nat := 10

/-- Modelled from the spec: the `VWIRE_TIMER_INVALID` invalid-id
sentinel; `_isValidId` accepts only `0 ≤ id < VWIRE_MAX_TIMERS`, so the
sentinel is the conventional -1. -/
def timerInvalid : Int := -1

/-- Modelled from the spec: the `VWIRE_RUN_FOREVER` "sentinel =
infinite" max-run-count; the conventional -1 (any value outside the
range of positive finite run counts works the same way in `run()`). -/
def runForever : Int := -1

/-- Truncation of a C `unsigned int` value to `int` (two's complement),
as in the `(int)numRuns` cast inside `VwireTimer::setTimer`. -/
def toInt32 (n : Nat) : Int :=
  ((n : Int) + 2147483648) % 4294967296 - 2147483648

/-- One timer slot.  The callback pointers are modelled by whether they
are non-null; `maxRuns`/`currentRun` are C `int`s. -/
structure TimerSlot where
  callback : Bool
  callbackArg : Bool
  hasArg : Bool
  interval : Nat
  lastTriggered : Nat
  maxRuns : Int
  currentRun : Int
  enabled : Bool
  inUse : Bool
deriving DecidableEq

/-- Slot state established by the `VwireTimer` constructor (and
re-established by `deleteTimer`). -/
def emptyTimerSlot : TimerSlot :=
  { callback := false, callbackArg := false, hasArg := false
  , interval := 0, lastTriggered := 0, maxRuns := 0, currentRun := 0
  , enabled := false, inUse := false }

/-- The `VwireTimer` state: fixed slot table plus the `int` running
count of in-use slots. -/
structure VwireTimer where
  timers : List TimerSlot
  numTimers : Int
deriving DecidableEq

/-- Freshly constructed timer. -/
def initTimer : VwireTimer :=
  { timers := List.replicate maxTimers emptyTimerSlot, numTimers := 0 }

/-- `VwireTimer::_findFreeSlot`; `none` models `VWIRE_TIMER_INVALID`. -/
def findFreeTimerSlot (s : VwireTimer) : Option Nat :=
  s.timers.findIdx? (fun t => !t.inUse)

/-- `VwireTimer::_isValidId`: bounds check plus in-use flag. -/
def isValidId (timerId : Int) (s : VwireTimer) : Bool :=
  if 0 ≤ timerId ∧ timerId < (maxTimers : Int) then
    ((s.timers.get? timerId.toNat).map (fun t => t.inUse)).getD false
  else false

/-- `VwireTimer::_createTimer(interval, maxRuns)` at time `now`:
allocate the first free slot, stamp `lastTriggered = millis()`,
`currentRun = 0`, enabled and in-use, callbacks null. -/
def createTimer (interval : Nat) (maxRuns : Int) (now : Nat) (s : VwireTimer) :
    VwireTimer × Int :=
  match findFreeTimerSlot s with
  | Option.none => (s, timerInvalid)
  | some slot =>
      let t : TimerSlot :=
        { callback := false, callbackArg := false, hasArg := false
        , interval := interval % U32, lastTriggered := now % U32
        , maxRuns := maxRuns, currentRun := 0, enabled := true, inUse := true }
      ({ s with timers := s.timers.set slot t, numTimers := s.numTimers + 1 },
       (slot : Int))

/-- Store the plain callback into a freshly created slot
(`_timers[slot].callback = callback; _timers[slot].hasArg = false`). -/
def setCallbackAt (ms : List TimerSlot) (i : Nat) (cb : Bool) : List TimerSlot :=
  match ms.get? i with
  | some t => ms.set i { t with callback := cb, hasArg := false }
  | Option.none => ms

/-- Embedding of `VwireTimer::setTimer(interval, callback, numRuns)`
(plain-callback overload) called when `millis()` reads `now`:
`numRuns == 0` is rejected with the invalid sentinel and no allocation;
otherwise a slot is created with `maxRuns = (int)numRuns`.  `numRuns`
is a C `unsigned int`, reduced here modulo `2^32` at the boundary. -/
def setTimerN (interval : Nat) (cb : Bool) (numRuns : Nat) (now : Nat)
    (s : VwireTimer) : VwireTimer × Int :=
  if numRuns % U32 = 0 then (s, timerInvalid)
  else
    let r := createTimer interval (toInt32 (numRuns % U32)) now s
    if r.2 ≠ timerInvalid then
      ({ r.1 with timers := setCallbackAt r.1.timers r.2.toNat cb }, r.2)
    else r

/-- Body of the `VwireTimer::run()` loop for one slot: skip unused or
disabled slots; when `(unsigned long)(currentMillis - lastTriggered) >=
interval`, stamp `lastTriggered`, increment `currentRun`, execute the
callback (second component: whether a callback actually ran), and
auto-delete once a finite `maxRuns` is reached (third component). -/
def timerStep (now : Nat) (t : TimerSlot) : TimerSlot × Bool × Bool :=
  if !t.inUse || !t.enabled then (t, false, false)
  else if t.interval ≤ usub32 now t.lastTriggered then
    let t1 := { t with lastTriggered := now % U32, currentRun := t.currentRun + 1 }
    let fired := if t1.hasArg && t1.callbackArg then true else t1.callback
    if t1.maxRuns ≠ runForever ∧ t1.maxRuns ≤ t1.currentRun then
      (emptyTimerSlot, fired, true)
    else (t1, fired, false)
  else (t, false, false)

/-- Embedding of `VwireTimer::run()` at time `now`: iterations touch
only the slot at hand (plus `_numTimers` on deletion), so the loop is a
map with the fired slot indices collected in index order. -/
def runTimer (now : Nat) (s : VwireTimer) : VwireTimer × List Nat :=
  let rs := s.timers.map (timerStep now)
  ({ timers := rs.map (fun r => r.1)
   , numTimers := s.numTimers - (rs.countP (fun r => r.2.2) : Int) },
   (List.range rs.length).filter
     (fun i => ((rs.get? i).map (fun r => r.2.1)).getD false))

/-- A sequence of `run()` invocations at the given times, with the
fired indices of every call concatenated in order. -/
def runTrace (s : VwireTimer) (ts : List Nat) : VwireTimer × List Nat :=
  match ts with
  | [] => (s, [])
  | t :: rest =>
      let r := runTimer t s
      let w := runTrace r.1 rest
      (w.1, r.2 ++ w.2)

def c6slot (I L : Nat) (c : Int) : TimerSlot :=
  { callback := true, callbackArg := false, hasArg := false
  , interval := I, lastTriggered := L, maxRuns := runForever, currentRun := c
  , enabled := true, inUse := true }

def c6state (I L : Nat) (c : Int) : VwireTimer :=
  { timers := c6slot I L c :: List.replicate 9 emptyTimerSlot, numTimers := 1 }

def c7slot (N : Int) (I c last : Nat) : TimerSlot :=
  { callback := true, callbackArg := false, hasArg := false
  , interval := I, lastTriggered := last, maxRuns := N, currentRun := (c : Int)
  , enabled := true, inUse := true }

def c7state (N : Int) (I c last : Nat) : VwireTimer :=
  { timers := c7slot N I c last :: List.replicate 9 emptyTimerSlot, numTimers := 1 }

def C7Inv (N : Int) (I : Nat) (s : VwireTimer) (f : Nat) : Prop :=
  (∃ c last : Nat, (c : Int) < N ∧ f = c ∧ s = c7state N I c last) ∨
  ((f : Int) = N ∧ s = initTimer)

lemma usub32_sub (a b : Nat) (hb : b ≤ a) (ha : a < U32) : usub32 a b = a - b := by
  unfold usub32 U32 at *
  omega

lemma usub32_wrap (L I : Nat) (hL : L < U32) (hI : I < U32) :
    usub32 ((L + I) % U32) L = I := by
  unfold usub32 U32 at *
  omega

lemma formatMsgId_data (c t : Nat) :
    (formatMsgId c t).data =
      hexDigit (c % 65536 / 4096 % 16) :: hexDigit (c % 65536 / 256 % 16) ::
      hexDigit (c % 65536 / 16 % 16) :: hexDigit (c % 65536 % 16) :: '_' ::
      (Nat.repr (t % 10000)).data := by
  simp [formatMsgId, hex4]

lemma queue_full_ne_formatMsgId (c t : Nat) : "queue_full" ≠ formatMsgId c t := by
  intro h
  have hd := congrArg String.data h
  rw [formatMsgId_data] at hd
  have h4 := congrArg (fun l => l.get? 4) hd
  simp [List.get?] at h4

lemma formatMsgId_one_ne (c : Nat) : formatMsgId c 1 ≠ "0001_0" := by
  intro h
  have hd := congrArg String.data h
  rw [formatMsgId_data] at hd
  have h5 := congrArg (fun l => l.get? 5) hd
  simp [List.get?, Nat.repr] at h5
  exact (by decide : Nat.digitChar 1 ≠ '0') h5


lemma hexDigit_inj : ∀ a < 16, ∀ b < 16, hexDigit a = hexDigit b → a = b := by decide

lemma formatMsgId_ne_of_ne (c1 c2 t1 t2 : Nat) (h : c1 % 65536 ≠ c2 % 65536) :
    formatMsgId c1 t1 ≠ formatMsgId c2 t2 := by
  intro he
  have hd := congrArg String.data he
  rw [formatMsgId_data, formatMsgId_data] at hd
  simp only [List.cons.injEq] at hd
  obtain ⟨e1, e2, e3, e4, -⟩ := hd
  have g1 := hexDigit_inj _ (Nat.mod_lt _ (by omega)) _ (Nat.mod_lt _ (by omega)) e1
  have g2 := hexDigit_inj _ (Nat.mod_lt _ (by omega)) _ (Nat.mod_lt _ (by omega)) e2
  have g3 := hexDigit_inj _ (Nat.mod_lt _ (by omega)) _ (Nat.mod_lt _ (by omega)) e3
  have g4 := hexDigit_inj _ (Nat.mod_lt _ (by omega)) _ (Nat.mod_lt _ (by omega)) e4
  omega

lemma handleAck_no_match (id : String) (b : Bool) (s : VwireState)
    (h : ∀ m ∈ s.pendingMessages, m.active → m.msgId ≠ id) :
    handleAck id b s = (s, []) := by
  unfold handleAck
  have hnone : s.pendingMessages.findIdx? (fun m => m.active && m.msgId == id) = none := by
    rw [List.findIdx?_eq_none_iff]
    intro m hm
    by_cases hact : m.active
    · simp [hact, beq_eq_false_iff_ne.mpr (h m hm hact)]
    · simp [hact]
  rw [hnone]

lemma processRetries_all_inactive (now : Nat) (s : VwireState)
    (h : ∀ m ∈ s.pendingMessages, m.active = false) :
    processRetries now s = (s, []) := by
  unfold processRetries
  have hmap : s.pendingMessages.map (retryStep s.ackTimeout s.maxRetries s.deviceId now) =
      s.pendingMessages.map (fun m => (m, [])) :=
    List.map_congr_left fun m hm => by simp [retryStep, h m hm]
  rw [hmap]
  cases s
  simp [List.map_map, Function.comp_def]

lemma processRetries_c1_retry (T r s now : Nat) (hdue : usub32 now s ≥ T)
    (hr : r < 3) (hnow : now < U32) :
    processRetries now (c1state T r s) =
      (c1state T (r + 1) now,
       [VwireEvent.publish (dataTopic "dev") (payloadFor (formatMsgId 1 0) 5 "val")]) := by
  simp [processRetries, c1state, retryStep, c1msg, hdue, hr, List.map_replicate, emptyPending,
        Nat.mod_eq_of_lt hnow, Nat.mod_eq_of_lt (show r + 1 < 256 by omega)]

lemma processRetries_c1_drop (T s now : Nat) (hdue : usub32 now s ≥ T) :
    processRetries now (c1state T 3 s) =
      ({ c1state T 3 s with pendingMessages :=
          { c1msg 3 s with active := false } :: List.replicate 9 emptyPending },
       [VwireEvent.deliveryCb (formatMsgId 1 0) false]) := by
  simp [processRetries, c1state, retryStep, c1msg, hdue, List.map_replicate, emptyPending]
set_option maxHeartbeats 2000000 in
/-- Claim C1: a reliable-delivery message that never receives an ACK, with
maxRetries = 3 and ACK timeout T, is transmitted once by send and
re-published exactly once on each of the processRetries ticks at T, 2T
and 3T (three retries, four transmissions in total); on the tick at 4T
the failure callback is invoked exactly once with that message's id and
the slot is freed, after which no processRetries call at any time
produces any event. -/
theorem reliableRetryGiveUp (T : Nat) (hT : 0 < T) (h4 : 4 * T < U32) :
    (c1send T).2 = [VwireEvent.publish (dataTopic "dev")
        (payloadFor (formatMsgId 1 0) 5 "val")] ∧
    (c1r1 T).2 = [VwireEvent.publish (dataTopic "dev")
        (payloadFor (formatMsgId 1 0) 5 "val")] ∧
    (c1r2 T).2 = [VwireEvent.publish (dataTopic "dev")
        (payloadFor (formatMsgId 1 0) 5 "val")] ∧
    (c1r3 T).2 = [VwireEvent.publish (dataTopic "dev")
        (payloadFor (formatMsgId 1 0) 5 "val")] ∧
    (c1r4 T).2 = [VwireEvent.deliveryCb (formatMsgId 1 0) false] ∧
    getPendingCount (c1r4 T).1 = 0 ∧
    (∀ u, processRetries u (c1r4 T).1 = ((c1r4 T).1, [])) := by
  have hU : (4294967296 : Nat) = U32 := rfl
  have hTU : T < U32 := by unfold U32 at *; omega
  have hsend : c1send T = (c1state T 0 0,
      [VwireEvent.publish (dataTopic "dev") (payloadFor (formatMsgId 1 0) 5 "val")]) := by
    have hTm : T % U32 = T := Nat.mod_eq_of_lt hTU
    simp [c1send, sendWithReliableDelivery, initVwire, findPendingSlot, c1state, c1msg,
          hTm, List.replicate_succ, List.findIdx?_cons, emptyPending, strTrunc,
          maxPendingMessages, U32]
    unfold U32 at h4
    omega
  have hd1 : usub32 T 0 ≥ T := by rw [usub32_sub T 0 (by omega) hTU]; omega
  have hd2 : usub32 (2 * T) T ≥ T := by rw [usub32_sub (2 * T) T (by omega) (by unfold U32 at *; omega)]; omega
  have hd3 : usub32 (3 * T) (2 * T) ≥ T := by rw [usub32_sub (3 * T) (2 * T) (by omega) (by unfold U32 at *; omega)]; omega
  have hd4 : usub32 (4 * T) (3 * T) ≥ T := by rw [usub32_sub (4 * T) (3 * T) (by omega) (by unfold U32 at *; omega)]; omega
  have h1 : c1r1 T = (c1state T 1 T,
      [VwireEvent.publish (dataTopic "dev") (payloadFor (formatMsgId 1 0) 5 "val")]) := by
    rw [c1r1, hsend]
    exact processRetries_c1_retry T 0 0 T hd1 (by omega) hTU
  have h2 : c1r2 T = (c1state T 2 (2 * T),
      [VwireEvent.publish (dataTopic "dev") (payloadFor (formatMsgId 1 0) 5 "val")]) := by
    rw [c1r2, h1]
    exact processRetries_c1_retry T 1 T (2 * T) hd2 (by omega) (by unfold U32 at *; omega)
  have h3 : c1r3 T = (c1state T 3 (3 * T),
      [VwireEvent.publish (dataTopic "dev") (payloadFor (formatMsgId 1 0) 5 "val")]) := by
    rw [c1r3, h2]
    exact processRetries_c1_retry T 2 (2 * T) (3 * T) hd3 (by omega) (by unfold U32 at *; omega)
  have h4s : c1r4 T = ({ c1state T 3 (3 * T) with pendingMessages :=
      { c1msg 3 (3 * T) with active := false } :: List.replicate 9 emptyPending },
      [VwireEvent.deliveryCb (formatMsgId 1 0) false]) := by
    rw [c1r4, h3]
    exact processRetries_c1_drop T (3 * T) (4 * T) hd4
  have hinact : ∀ m ∈ (c1r4 T).1.pendingMessages, m.active = false := by
    rw [h4s]
    intro m hm
    simp [List.eq_of_mem_replicate] at hm
    rcases hm with h | h
    · rw [h]
    · rw [h]; rfl
  refine ⟨by rw [hsend], by rw [h1], by rw [h2], by rw [h3], by rw [h4s], ?_, ?_⟩
  · rw [h4s]
    simp [getPendingCount, c1state, List.countP_replicate, emptyPending]
  · intro u
    exact processRetries_all_inactive u (c1r4 T).1 hinact
set_option maxHeartbeats 2000000 in
/-- Claim C2: after sending one reliable message, a single
handleAck(id, true) for its id frees exactly one pending slot
(getPendingCount drops from 1 to 0) and invokes the delivery callback
exactly once with (id, true); a second handleAck with the same id, and
any handleAck whose id matches no active slot, changes no state and
invokes no callback. -/
theorem ackFreesSlotExactlyOnce (id2 : String) (h : id2 ≠ formatMsgId 1 0) :
    getPendingCount c2s1 = 1 ∧
    getPendingCount c2s2 = 0 ∧
    handleAck (formatMsgId 1 0) true c2s1 =
      (c2s2, [VwireEvent.deliveryCb (formatMsgId 1 0) true]) ∧
    handleAck (formatMsgId 1 0) true c2s2 = (c2s2, []) ∧
    handleAck id2 true c2s1 = (c2s1, []) := by
  refine ⟨by decide, by decide, by decide, by decide, ?_⟩
  apply handleAck_no_match
  intro m hm hact
  have hms : c2s1.pendingMessages = (formatMsgId 1 0 |> fun mid =>
      [{ msgId := mid, pin := 0, value := "42", sentAt := 0, retries := 0, active := true }] ++
      List.replicate 9 emptyPending) := by decide
  rw [hms] at hm
  simp [List.mem_append, List.eq_of_mem_replicate] at hm
  rcases hm with h1 | h1
  · rw [h1]
    intro heq
    exact h heq.symm
  · rw [h1] at hact
    exact absurd hact (by decide)
set_option maxHeartbeats 4000000 in
/-- Claim C3: when all 10 pending slots are active, one more send sets
the distinct VWIRE_ERR_QUEUE_FULL error code, invokes the failure
callback exactly once with the sentinel id "queue_full" (never equal to
a real generated message id), admits nothing (getPendingCount and the
whole table unchanged), and publishes nothing. -/
theorem queueFullRejectsSend :
    getPendingCount c3s10 = 10 ∧
    sendWithReliableDelivery 3 "w" 7 c3s10 =
      ({ c3s10 with lastError := VwireError.queueFull },
       [VwireEvent.deliveryCb "queue_full" false]) ∧
    getPendingCount { c3s10 with lastError := VwireError.queueFull } = 10 ∧
    (∀ c t, "queue_full" ≠ formatMsgId c t) :=
  ⟨by decide, by decide, by decide, queue_full_ne_formatMsgId⟩

lemma c4s1_inv : C4Inv 1 c4s1 := by
  refine ⟨by decide, emptyPending, by decide, by decide⟩

lemma c4step_inv (k : Nat) (s : VwireState) (hk2 : k + 1 < U32)
    (h : C4Inv k s) : C4Inv (k + 1) (c4step s) := by
  obtain ⟨hc, j, hj, hp⟩ := h
  have hkmod : (k + 1) % U32 = k + 1 := Nat.mod_eq_of_lt hk2
  have hneP : formatMsgId 1 0 ≠ formatMsgId (k + 1) 1 :=
    fun he => formatMsgId_one_ne (k + 1) (by rw [← he]; decide)
  have hne : (c4victim.msgId == formatMsgId (k + 1) 1) = false := by
    rw [beq_eq_false_iff_ne]
    exact hneP
  have hkmodL : (k + 1) % 4294967296 = k + 1 := hkmod
  unfold c4step
  rw [hc, hkmod]
  have hsend : (sendWithReliableDelivery 0 "v" 1 s).1 =
      { s with msgIdCounter := k + 1,
               pendingMessages := c4victim ::
                 { msgId := formatMsgId (k + 1) 1, pin := 0, value := "v",
                   sentAt := 1, retries := 0, active := true } ::
                 List.replicate 8 emptyPending } := by
    simp [sendWithReliableDelivery, findPendingSlot, hp, hc, hkmod, List.findIdx?_cons,
          c4victim, hj, strTrunc, U32]
    exact ⟨by rw [hkmodL], by omega⟩
  rw [hsend]
  have hack : (handleAck (formatMsgId (k + 1) 1) true
      ({ s with msgIdCounter := k + 1,
                pendingMessages := c4victim ::
                  { msgId := formatMsgId (k + 1) 1, pin := 0, value := "v",
                    sentAt := 1, retries := 0, active := true } ::
                  List.replicate 8 emptyPending } : VwireState)).1 =
      { s with msgIdCounter := k + 1,
               pendingMessages := c4victim ::
                 { msgId := formatMsgId (k + 1) 1, pin := 0, value := "v",
                   sentAt := 1, retries := 0, active := false } ::
                 List.replicate 8 emptyPending } := by
    simp [handleAck, List.findIdx?_cons, c4victim, hne, hneP, deactivateAt]
  rw [hack]
  exact ⟨rfl, _, rfl, rfl⟩

lemma c4_iter : ∀ n, n + 2 < U32 → C4Inv (1 + n) (c4step^[n] c4s1) := by
  intro n
  induction n with
  | zero => intro _; exact c4s1_inv
  | succ m ih =>
    intro hm
    rw [Function.iterate_succ_apply']
    exact c4step_inv (1 + m) _ (by omega) (ih (by omega))

lemma c4_final_send (s : VwireState) (hc : s.msgIdCounter = 1 + 65535)
    (j : PendingMessage) (hj : j.active = false)
    (hp : s.pendingMessages = c4victim :: j :: List.replicate 8 emptyPending) :
    (sendWithReliableDelivery 0 "v" 10000 s).1.pendingMessages =
      c4victim ::
        { msgId := formatMsgId 1 0, pin := 0, value := "v",
          sentAt := 10000 % U32, retries := 0, active := true } ::
        List.replicate 8 emptyPending := by
  have hsame : formatMsgId ((1 + 65535 + 1) % U32) 10000 = formatMsgId 1 0 := by decide
  simp only [sendWithReliableDelivery, findPendingSlot, hp, hc,
             List.findIdx?_cons, hsame]
  simp [c4victim, hj, strTrunc]

/-- Claim C4, counterexample: a reachable state with two active pending
slots carrying the identical message id "0001_0": send a victim message
at time 0 and never ACK it, run 65535 send-then-ACK pairs at time 1,
then send once more at time 10000.  The 16-bit truncation of the
counter and the time modulo 10000 both collide, so message-id
uniqueness among active slots does not hold at every reachable
instant. -/
theorem msgIdCollisionReachable :
    ((sendWithReliableDelivery 0 "v" 10000 (c4step^[65535] c4s1)).1.pendingMessages.get? 0).map
        PendingMessage.active = some true ∧
    ((sendWithReliableDelivery 0 "v" 10000 (c4step^[65535] c4s1)).1.pendingMessages.get? 1).map
        PendingMessage.active = some true ∧
    ((sendWithReliableDelivery 0 "v" 10000 (c4step^[65535] c4s1)).1.pendingMessages.get? 0).map
        PendingMessage.msgId = some (formatMsgId 1 0) ∧
    ((sendWithReliableDelivery 0 "v" 10000 (c4step^[65535] c4s1)).1.pendingMessages.get? 1).map
        PendingMessage.msgId = some (formatMsgId 1 0) := by
  obtain ⟨hc, j, hj, hp⟩ := c4_iter 65535 (by unfold U32; omega)
  have hpend := c4_final_send _ hc j hj hp
  rw [hpend]
  decide

lemma slotWitness_mono (n n2 : Nat) (m : PendingMessage) (h : n ≤ n2)
    (hw : SlotWitness n m) : SlotWitness n2 m := by
  intro ha
  obtain ⟨c, t, h1, h2, h3⟩ := hw ha
  exact ⟨c, t, h1, le_trans h2 h, h3⟩

lemma tableOk_weak (n : Nat) (ms ms2 : List PendingMessage)
    (hw : ∀ k : Nat, ∀ mk ∈ ms2.get? k, ∃ m ∈ ms.get? k, Weakens m mk)
    (h : TableOk n ms) : TableOk n ms2 := by
  intro k mk hmk ha
  obtain ⟨m, hm, hid, hact⟩ := hw k mk hmk
  obtain ⟨c, t, h1, h2, h3⟩ := h k m hm (hact ha)
  exact ⟨c, t, h1, h2, hid.trans h3⟩

lemma idsDistinct_weak (ms ms2 : List PendingMessage)
    (hw : ∀ k : Nat, ∀ mk ∈ ms2.get? k, ∃ m ∈ ms.get? k, Weakens m mk)
    (h : IdsDistinct ms) : IdsDistinct ms2 := by
  intro i j hij mi hmi mj hmj hai haj
  obtain ⟨m, hm, hid, hact⟩ := hw i mi hmi
  obtain ⟨m2, hm2, hid2, hact2⟩ := hw j mj hmj
  rw [hid, hid2]
  exact h i j hij m hm m2 hm2 (hact hai) (hact2 haj)

lemma deactivateAt_weak (ms : List PendingMessage) (i : Nat) :
    ∀ k : Nat, ∀ mk ∈ (deactivateAt ms i).get? k, ∃ m ∈ ms.get? k, Weakens m mk := by
  intro k mk hmk
  unfold deactivateAt at hmk
  cases hi : ms.get? i with
  | none => rw [hi] at hmk; exact ⟨mk, hmk, rfl, fun h => h⟩
  | some m =>
    rw [hi] at hmk
    by_cases hk : i = k
    · subst hk
      rw [List.get?_set_eq, hi] at hmk
      simp at hmk
      exact ⟨m, hi, by rw [← hmk], by rw [← hmk]; intro h; exact absurd h (by simp)⟩
    · rw [List.get?_set_ne _ _ hk] at hmk
      exact ⟨mk, hmk, rfl, fun h => h⟩

lemma retryStep_weak (a r : Nat) (d : String) (now : Nat) (m : PendingMessage) :
    Weakens m (retryStep a r d now m).1 := by
  unfold retryStep Weakens
  split
  · exact ⟨rfl, fun h => h⟩
  · split
    · split
      · exact ⟨rfl, fun h => h⟩
      · exact ⟨rfl, fun h => by simp at h⟩
    · exact ⟨rfl, fun h => h⟩

lemma reach_inv (n : Nat) (s : VwireState) (h : Reach n s) :
    n < 65536 → ReliableInv n s := by
  induction h with
  | init a r d =>
    intro _
    refine ⟨Nat.le_refl 0, ?_, ?_⟩
    · intro k m hm ha
      have hmem : m ∈ List.replicate maxPendingMessages emptyPending := List.get?_mem hm
      rw [List.eq_of_mem_replicate hmem] at ha
      exact absurd ha (by decide)
    · intro i j hij mi hmi mj hmj hai haj
      have hmem : mi ∈ List.replicate maxPendingMessages emptyPending := List.get?_mem hmi
      rw [List.eq_of_mem_replicate hmem] at hai
      exact absurd hai (by decide)
  | send n s p v now hr ih =>
    intro hn
    obtain ⟨hc, hT, hD⟩ := ih (by omega)
    cases hf : findPendingSlot s.pendingMessages with
    | none =>
      have hs : (sendWithReliableDelivery p v now s).1 =
          { s with lastError := VwireError.queueFull } := by
        simp [sendWithReliableDelivery, hf]
      rw [hs]
      exact ⟨Nat.le_succ_of_le hc, hT, hD⟩
    | some slot =>
      have hcU : (s.msgIdCounter + 1) % U32 = s.msgIdCounter + 1 :=
        Nat.mod_eq_of_lt (by unfold U32; omega)
      have hs : (sendWithReliableDelivery p v now s).1 =
          { s with msgIdCounter := s.msgIdCounter + 1,
                   pendingMessages := s.pendingMessages.set slot
                     { msgId := formatMsgId (s.msgIdCounter + 1) now, pin := p % 256
                     , value := strTrunc 63 v, sentAt := now % U32, retries := 0
                     , active := true } } := by
        simp [sendWithReliableDelivery, hf, hcU]
      rw [hs]
      refine ⟨by show s.msgIdCounter + 1 ≤ n + 1; omega, ?_, ?_⟩
      · intro k m hm ha
        rw [List.get?_set] at hm
        by_cases hk : slot = k
        · rw [if_pos hk] at hm
          cases hg : s.pendingMessages.get? k with
          | none => rw [hg] at hm; exact absurd hm (by simp)
          | some m0 =>
            rw [hg] at hm
            simp at hm
            subst hm
            exact ⟨s.msgIdCounter + 1, now, by omega, Nat.le_refl _, rfl⟩
        · rw [if_neg hk] at hm
          exact slotWitness_mono _ _ _ (Nat.le_succ _) (hT k m hm) ha
      · intro i j hij mi hmi mj hmj hai haj
        rw [List.get?_set] at hmi hmj
        by_cases hi : slot = i
        · rw [if_pos hi] at hmi
          have hj : ¬ slot = j := by omega
          rw [if_neg hj] at hmj
          cases hg : s.pendingMessages.get? i with
          | none => rw [hg] at hmi; exact absurd hmi (by simp)
          | some m0 =>
            rw [hg] at hmi
            simp at hmi
            subst hmi
            obtain ⟨cw, tw, hw1, hw2, hw3⟩ := hT j mj hmj haj
            rw [hw3]
            apply formatMsgId_ne_of_ne
            have e1 : (s.msgIdCounter + 1) % 65536 = s.msgIdCounter + 1 :=
              Nat.mod_eq_of_lt (by omega)
            have e2 : cw % 65536 = cw := Nat.mod_eq_of_lt (by omega)
            omega
        · rw [if_neg hi] at hmi
          by_cases hj : slot = j
          · rw [if_pos hj] at hmj
            cases hg : s.pendingMessages.get? j with
            | none => rw [hg] at hmj; exact absurd hmj (by simp)
            | some m0 =>
              rw [hg] at hmj
              simp at hmj
              subst hmj
              obtain ⟨cw, tw, hw1, hw2, hw3⟩ := hT i mi hmi hai
              rw [hw3]
              apply formatMsgId_ne_of_ne
              have e1 : (s.msgIdCounter + 1) % 65536 = s.msgIdCounter + 1 :=
                Nat.mod_eq_of_lt (by omega)
              have e2 : cw % 65536 = cw := Nat.mod_eq_of_lt (by omega)
              omega
          · rw [if_neg hj] at hmj
            exact hD i j hij mi hmi mj hmj hai haj
  | ack n s id b hr ih =>
    intro hn
    obtain ⟨hc, hT, hD⟩ := ih hn
    cases hfind : s.pendingMessages.findIdx? (fun m => m.active && m.msgId == id) with
    | none =>
      have hs : (handleAck id b s).1 = s := by simp [handleAck, hfind]
      rw [hs]
      exact ⟨hc, hT, hD⟩
    | some i =>
      have hs : (handleAck id b s).1 =
          { s with pendingMessages := deactivateAt s.pendingMessages i } := by
        simp [handleAck, hfind]
      rw [hs]
      exact ⟨hc, tableOk_weak _ _ _ (deactivateAt_weak _ _) hT,
             idsDistinct_weak _ _ (deactivateAt_weak _ _) hD⟩
  | retry n s now hr ih =>
    intro hn
    obtain ⟨hc, hT, hD⟩ := ih hn
    have hw : ∀ k : Nat, ∀ mk ∈ (processRetries now s).1.pendingMessages.get? k,
        ∃ m ∈ s.pendingMessages.get? k, Weakens m mk := by
      intro k mk hmk
      have : (processRetries now s).1.pendingMessages =
          (s.pendingMessages.map (retryStep s.ackTimeout s.maxRetries s.deviceId now)).map
            Prod.fst := rfl
      rw [this, List.get?_map, List.get?_map] at hmk
      cases hg : s.pendingMessages.get? k with
      | none => rw [hg] at hmk; exact absurd hmk (by simp)
      | some m =>
        rw [hg] at hmk
        simp at hmk
        subst hmk
        exact ⟨m, rfl, retryStep_weak _ _ _ _ m⟩
    have hcnt : (processRetries now s).1.msgIdCounter = s.msgIdCounter := rfl
    refine ⟨by rw [hcnt]; exact hc, ?_, idsDistinct_weak _ _ hw hD⟩
    rw [hcnt]
    exact tableOk_weak _ _ _ hw hT

/-- Claim C4 (amended): at any state reachable by fewer than 65536 send
calls — so the 16-bit truncation of the uint32 message-id counter has
not yet wrapped — the message ids stored in active pending slots are
pairwise distinct. -/
theorem msgIdUniqueBeforeCounterWrap (n : Nat) (s : VwireState)
    (hr : Reach n s) (hn : n < 65536) : IdsDistinct s.pendingMessages :=
  (reach_inv n s hr hn).2.2

lemma constrain_bounds (v : Int) : 0 ≤ constrain v 0 255 ∧ constrain v 0 255 ≤ 255 := by
  unfold constrain
  split_ifs <;> omega

lemma c5g_eq (mode : VwireGPIOMode) :
    c5g mode = { pins := pinD2 mode :: List.replicate 15 emptyGpioPin, count := 1 } := by
  have h2 : ((2 : Int).emod 256).toNat = 2 := by decide
  simp [c5g, addPin, resolvePinNumber, addPinG, findPin, findFreeSlot, initGpio,
        maxGpioPins, List.replicate_succ, List.findIdx?_cons, emptyGpioPin, pinD2,
        storedName, clampInterval, atoi, atoiDigits, toUpperChar, h2]

/-- Claim C5: handleCommand on a pin configured OUTPUT or PWM first
clamps the value to [0,255] and then performs a digital write iff the
clamped value is 0 or 1 and a PWM write iff it is in [2,255]; a digital
write on a pin whose PWM channel was previously attached detaches the
channel first (final conjunct: value 200 then value 1). -/
theorem smartWriteThreshold (mode : VwireGPIOMode)
    (hm : mode = VwireGPIOMode.output ∨ mode = VwireGPIOMode.pwm) (v : Int) :
    (handleCommand "D2" v (c5g mode)).2.1 = true ∧
    ((handleCommand "D2" v (c5g mode)).2.2.any isDigitalEv = true ↔
      (constrain v 0 255 = 0 ∨ constrain v 0 255 = 1)) ∧
    ((handleCommand "D2" v (c5g mode)).2.2.any isPwmEv = true ↔
      (2 ≤ constrain v 0 255 ∧ constrain v 0 255 ≤ 255)) ∧
    (constrain v 0 255 ≤ 1 →
      (handleCommand "D2" v (c5g mode)).2.2 =
        [GpioHwEvent.digitalWrite 2 (constrain v 0 255 != 0)]) ∧
    (2 ≤ constrain v 0 255 →
      (handleCommand "D2" v (c5g mode)).2.2 =
        [GpioHwEvent.ledcSetup 0 5000 8, GpioHwEvent.ledcAttach 2 0,
         GpioHwEvent.ledcWrite 0 (constrain v 0 255)]) ∧
    (handleCommand "D2" 1 (handleCommand "D2" 200 (c5g mode)).1).2.2 =
      [GpioHwEvent.ledcDetach 2, GpioHwEvent.pinModeOutput 2,
       GpioHwEvent.digitalWrite 2 true] := by
  obtain ⟨hb0, hb255⟩ := constrain_bounds v
  have hcmd : handleCommand "D2" v (c5g mode) =
      ({ pins := { (writeHardware (pinD2 mode) 0 v).1 with lastValue := toInt16 v } ::
          List.replicate 15 emptyGpioPin, count := 1 },
       true, (writeHardware (pinD2 mode) 0 v).2) := by
    rw [c5g_eq]
    rcases hm with h | h <;> subst h <;> rfl
  rw [hcmd]
  by_cases hv : constrain v 0 255 ≤ 1
  · have hwh : writeHardware (pinD2 mode) 0 v =
        (pinD2 mode, [GpioHwEvent.digitalWrite 2 (constrain v 0 255 != 0)]) := by
      simp [writeHardware, pinD2, hv]
    rw [hwh]
    refine ⟨rfl, ?_, ?_, fun _ => rfl, fun h => by omega, ?_⟩
    · simp [isDigitalEv]
      omega
    · simp [isPwmEv]
      omega
    · rcases hm with h | h <;> subst h <;> decide
  · have hwh : writeHardware (pinD2 mode) 0 v =
        ({ pinD2 mode with flags := 1 },
         [GpioHwEvent.ledcSetup 0 5000 8, GpioHwEvent.ledcAttach 2 0,
          GpioHwEvent.ledcWrite 0 (constrain v 0 255)]) := by
      simp [writeHardware, pinD2, hv]
    rw [hwh]
    refine ⟨rfl, ?_, ?_, fun h => by omega, fun _ => rfl, ?_⟩
    · simp [isDigitalEv]
      omega
    · simp [isPwmEv]
      omega
    · rcases hm with h | h <;> subst h <;> decide

lemma char_ofNat_toNat (n : Nat) (h : n < 55296) : (Char.ofNat n).toNat = n := by
  simp [Char.ofNat, Char.toNat, Char.ofNatAux, h]
  rw [dif_pos (Or.inl h)]
  simp [Char.ofNatAux, UInt32.toNat, BitVec.toNat_ofNatLt]

lemma toUpperChar_idem (c : Char) : toUpperChar (toUpperChar c) = toUpperChar c := by
  unfold toUpperChar
  by_cases h : 97 ≤ c.toNat ∧ c.toNat ≤ 122
  · rw [if_pos h]
    have hv : (Char.ofNat (c.toNat - 32)).toNat = c.toNat - 32 :=
      char_ofNat_toNat _ (by omega)
    rw [if_neg (by omega)]
  · rw [if_neg h, if_neg h]

lemma nameEq_symm (a b : List Char) : nameEq a b = nameEq b a := by
  induction a generalizing b with
  | nil => cases b <;> rfl
  | cons x xs ih =>
    cases b with
    | nil => rfl
    | cons y ys =>
      unfold nameEq
      by_cases h : toUpperChar x = toUpperChar y
      · rw [if_pos h, if_pos h.symm, ih]
      · rw [if_neg h, if_neg (fun hc => h hc.symm)]

lemma nameEq_trans (a b c : List Char) (h1 : nameEq a b = true)
    (h2 : nameEq b c = true) : nameEq a c = true := by
  induction a generalizing b c with
  | nil =>
    cases b with
    | nil => cases c with
      | nil => rfl
      | cons z zs => exact absurd h2 (by simp [nameEq])
    | cons y ys => exact absurd h1 (by simp [nameEq])
  | cons x xs ih =>
    cases b with
    | nil => exact absurd h1 (by simp [nameEq])
    | cons y ys =>
      cases c with
      | nil => exact absurd h2 (by simp [nameEq])
      | cons z zs =>
        unfold nameEq at h1 h2 ⊢
        by_cases hxy : toUpperChar x = toUpperChar y
        · rw [if_pos hxy] at h1
          by_cases hyz : toUpperChar y = toUpperChar z
          · rw [if_pos hyz] at h2
            rw [if_pos (hxy.trans hyz)]
            exact ih ys zs h1 h2
          · rw [if_neg hyz] at h2
            exact absurd h2 (by simp)
        · rw [if_neg hxy] at h1
          exact absurd h1 (by simp)

lemma nameEq_upper_right (a b : List Char) :
    nameEq a (b.map toUpperChar) = nameEq a b := by
  induction a generalizing b with
  | nil => cases b <;> rfl
  | cons x xs ih =>
    cases b with
    | nil => rfl
    | cons y ys =>
      unfold nameEq
      simp only [List.map_cons]
      rw [toUpperChar_idem, ih]

lemma namesUnique_weak (g g2 : VwireGPIOManager)
    (hw : ∀ k : Nat, ∀ pk ∈ g2.pins.get? k, ∃ p ∈ g.pins.get? k,
      p.pinName = pk.pinName ∧ (pk.active = true → p.active = true))
    (h : NamesUnique g) : NamesUnique g2 := by
  intro i j hij pi hpi pj hpj hai haj
  obtain ⟨qi, hqi, hni, hacti⟩ := hw i pi hpi
  obtain ⟨qj, hqj, hnj, hactj⟩ := hw j pj hpj
  rw [← hni, ← hnj]
  exact h i j hij qi hqi qj hqj (hacti hai) (hactj haj)

lemma findIdx?_spec {α : Type} (xs : List α) (p : α → Bool) (i : Nat)
    (h : xs.findIdx? p = some i) :
    i < xs.length ∧ (∀ m, xs.get? i = some m → p m = true) ∧
      (∀ j, j < i → ∀ m, xs.get? j = some m → p m = false) := by
  rw [List.findIdx?_eq_some_iff_findIdx_eq] at h
  obtain ⟨hlen, hidx⟩ := h
  rw [List.findIdx_eq hlen] at hidx
  obtain ⟨hp, hprev⟩ := hidx
  refine ⟨hlen, ?_, ?_⟩
  · intro m hm
    obtain ⟨hb, hg⟩ := List.get?_eq_some.mp hm
    rw [← hg]
    exact hp
  · intro j hj m hm
    obtain ⟨hb, hg⟩ := List.get?_eq_some.mp hm
    rw [← hg]
    exact hprev j (by omega)

lemma storedName_data (name : String) (hlen : name.length ≤ 5) :
    (storedName name).data = name.data.map toUpperChar := by
  unfold storedName
  rw [List.take_all_of_le hlen]

lemma addPinG_uniq (name : String) (gpio : Nat) (mode : VwireGPIOMode)
    (interval : Nat) (g : VwireGPIOManager) (hlen : name.length ≤ 5)
    (h : NamesUnique g) : NamesUnique (addPinG name gpio mode interval g).1 := by
  unfold addPinG
  cases hf : findPin name g with
  | some idx =>
    obtain ⟨hb, hat, hprev⟩ := findIdx?_spec _ _ _ hf
    intro i j hij pi hpi pj hpj hai haj
    simp only [List.get?_set] at hpi hpj
    by_cases hi : idx = i
    · rw [if_pos hi] at hpi
      have hj : ¬ idx = j := by omega
      rw [if_neg hj] at hpj
      cases hg : g.pins.get? i with
      | none => rw [hg] at hpi; exact absurd hpi (by simp)
      | some q =>
        rw [hg] at hpi
        simp at hpi
        subst hpi
        by_contra hne
        have htrue : nameEq (storedName name).data pj.pinName.data = true := by
          cases hx : nameEq (storedName name).data pj.pinName.data
          · exact absurd hx hne
          · rfl
        rw [storedName_data name hlen] at htrue
        rw [nameEq_symm] at htrue
        rw [nameEq_upper_right] at htrue
        -- pj matches the lookup name, so slot j also satisfies the findPin predicate
        have hpj_match : (fun p => p.active && nameEq p.pinName.data name.data) pj = true := by
          simp [haj, htrue]
        -- slot idx itself satisfies the predicate
        cases hgq : g.pins.get? idx with
        | none =>
          have : idx < g.pins.length := hb
          rw [List.get?_eq_none] at hgq
          omega
        | some q0 =>
          have hq0 : (q0.active && nameEq q0.pinName.data name.data) = true := hat q0 hgq
          simp at hq0
          -- slots idx and j are distinct active slots with case-equal names
          have hq0pj : nameEq q0.pinName.data pj.pinName.data = true :=
            nameEq_trans _ _ _ hq0.2 (nameEq_symm pj.pinName.data name.data ▸ htrue)
          rcases Nat.lt_or_ge idx j with hlt | hge
          · have := h idx j hlt q0 (hi ▸ hgq) pj hpj hq0.1 haj
            rw [this] at hq0pj
            exact absurd hq0pj (by simp)
          · have hjlt : j < idx := by omega
            have := h j idx hjlt pj hpj q0 (hi ▸ hgq) haj hq0.1
            rw [nameEq_symm] at hq0pj
            rw [this] at hq0pj
            exact absurd hq0pj (by simp)
    · rw [if_neg hi] at hpi
      by_cases hj : idx = j
      · rw [if_pos hj] at hpj
        cases hg : g.pins.get? j with
        | none => rw [hg] at hpj; exact absurd hpj (by simp)
        | some q =>
          rw [hg] at hpj
          simp at hpj
          subst hpj
          by_contra hne
          have htrue : nameEq pi.pinName.data (storedName name).data = true := by
            cases hx : nameEq pi.pinName.data (storedName name).data
            · exact absurd hx hne
            · rfl
          rw [storedName_data name hlen, nameEq_upper_right] at htrue
          have hpi_match : (fun p => p.active && nameEq p.pinName.data name.data) pi = true := by
            simp [hai, htrue]
          cases hgq : g.pins.get? idx with
          | none =>
            rw [List.get?_eq_none] at hgq
            omega
          | some q0 =>
            have hq0 : (q0.active && nameEq q0.pinName.data name.data) = true := hat q0 hgq
            simp at hq0
            have hpiq0 : nameEq pi.pinName.data q0.pinName.data = true :=
              nameEq_trans _ _ _ htrue (nameEq_symm q0.pinName.data name.data ▸ hq0.2)
            rcases Nat.lt_or_ge i idx with hlt | hge
            · have := h i idx hlt pi hpi q0 (hj ▸ hgq) hai hq0.1
              rw [this] at hpiq0
              exact absurd hpiq0 (by simp)
            · have hilt : idx < i := by omega
              have := h idx i hilt q0 (hj ▸ hgq) pi hpi hq0.1 hai
              rw [nameEq_symm] at hpiq0
              rw [this] at hpiq0
              exact absurd hpiq0 (by simp)
      · rw [if_neg hj] at hpj
        exact h i j hij pi hpi pj hpj hai haj
  | none =>
    cases hfree : findFreeSlot g with
    | none =>
      exact h
    | some idx =>
      have hnone := List.findIdx?_eq_none_iff.mp hf
      intro i j hij pi hpi pj hpj hai haj
      simp only [List.get?_set] at hpi hpj
      by_cases hi : idx = i
      · rw [if_pos hi] at hpi
        have hj : ¬ idx = j := by omega
        rw [if_neg hj] at hpj
        cases hg : g.pins.get? i with
        | none => rw [hg] at hpi; exact absurd hpi (by simp)
        | some q =>
          rw [hg] at hpi
          simp at hpi
          subst hpi
          by_contra hne
          have htrue : nameEq (storedName name).data pj.pinName.data = true := by
            cases hx : nameEq (storedName name).data pj.pinName.data
            · exact absurd hx hne
            · rfl
          rw [storedName_data name hlen, nameEq_symm, nameEq_upper_right] at htrue
          have hmem : pj ∈ g.pins := List.get?_mem hpj
          have := hnone pj hmem
          simp [haj] at this
          rw [nameEq_symm] at htrue
          rw [nameEq_symm] at this
          rw [this] at htrue
          exact absurd htrue (by simp)
      · rw [if_neg hi] at hpi
        by_cases hj : idx = j
        · rw [if_pos hj] at hpj
          cases hg : g.pins.get? j with
          | none => rw [hg] at hpj; exact absurd hpj (by simp)
          | some q =>
            rw [hg] at hpj
            simp at hpj
            subst hpj
            by_contra hne
            have htrue : nameEq pi.pinName.data (storedName name).data = true := by
              cases hx : nameEq pi.pinName.data (storedName name).data
              · exact absurd hx hne
              · rfl
            rw [storedName_data name hlen, nameEq_upper_right] at htrue
            have hmem : pi ∈ g.pins := List.get?_mem hpi
            have := hnone pi hmem
            simp [hai] at this
            rw [this] at htrue
            exact absurd htrue (by simp)
        · rw [if_neg hj] at hpj
          exact h i j hij pi hpi pj hpj hai haj

lemma removePin_uniq (name : String) (g : VwireGPIOManager)
    (h : NamesUnique g) : NamesUnique (removePin name g).1 := by
  unfold removePin
  cases hf : findPin name g with
  | none => simp only [hf]; exact h
  | some idx =>
    simp only [hf]
    cases hg : g.pins.get? idx with
    | none => simp only [hg]; exact h
    | some p =>
      simp only [hg]
      apply namesUnique_weak g _ _ h
      intro k pk hpk
      simp only [List.get?_set] at hpk
      by_cases hk : idx = k
      · rw [if_pos hk] at hpk
        subst hk
        rw [hg] at hpk
        simp at hpk
        subst hpk
        exact ⟨p, Option.mem_def.mpr hg, rfl, fun hc => absurd hc (by simp)⟩
      · rw [if_neg hk] at hpk
        exact ⟨pk, hpk, rfl, fun hc => hc⟩

lemma clearAll_uniq (g : VwireGPIOManager) (h : NamesUnique g) :
    NamesUnique (clearAll g) := by
  apply namesUnique_weak g _ _ h
  intro k pk hpk
  have hmap : (clearAll g).pins.get? k =
      (g.pins.get? k).map (fun p => { p with active := false }) := by
    simp [clearAll, List.get?_map]
  rw [hmap] at hpk
  cases hg : g.pins.get? k with
  | none => rw [hg] at hpk; exact absurd hpk (by simp)
  | some q =>
    rw [hg] at hpk
    simp at hpk
    subst hpk
    exact ⟨q, Option.mem_def.mpr rfl, rfl, fun hc => absurd hc (by simp)⟩

lemma addPin_uniq (name : String) (mode : VwireGPIOMode) (interval : Nat)
    (g : VwireGPIOManager) (hlen : name.length ≤ 5) (h : NamesUnique g) :
    NamesUnique (addPin name mode interval g).1 := by
  unfold addPin
  by_cases hres : resolvePinNumber name = 255
  · rw [if_pos hres]
    exact h
  · rw [if_neg hres]
    exact addPinG_uniq name _ mode interval g hlen h

lemma namesUnique_init : NamesUnique initGpio := by
  intro i j hij pi hpi pj hpj hai haj
  have hmem : pi ∈ List.replicate maxGpioPins emptyGpioPin := List.get?_mem hpi
  rw [List.eq_of_mem_replicate hmem] at hai
  exact absurd hai (by decide)

lemma runGpioOps_aux (os : List GpioOp) (g : VwireGPIOManager)
    (hs : ∀ o ∈ os, shortName o) (h : NamesUnique g) :
    NamesUnique (os.foldl (fun g o => applyGpioOp o g) g) := by
  induction os generalizing g with
  | nil => exact h
  | cons o rest ih =>
    rw [List.foldl_cons]
    apply ih _ (fun o2 ho2 => hs o2 (List.mem_cons_of_mem o ho2))
    have hso : shortName o := hs o (List.mem_cons_self o rest)
    cases o with
    | add n m i => exact addPin_uniq n m i g hso h
    | addG n gp m i => exact addPinG_uniq n gp m i g hso h
    | remove n => exact removePin_uniq n g h
    | clear => exact clearAll_uniq g h

/-- Claim C8 (amended to names of at most 5 characters, the name-buffer
capacity): pin names are matched case-insensitively and stored
uppercased, so after addPin "d4" followed by addPin "D4" exactly one
active slot exists, holding the second call's mode and interval, and
getPinCount is 1; and after any sequence of addPin / removePin /
clearAll operations whose added names have at most 5 characters, each
pin name (up to case) maps to at most one active slot. -/
theorem pinNameCaseInsensitiveUnique (os : List GpioOp)
    (hs : ∀ o ∈ os, shortName o) :
    NamesUnique (runGpioOps os) ∧
    getPinCount c8d4 = 1 ∧
    c8d4.pins.countP (fun p => p.active) = 1 ∧
    c8d4.pins.get? 0 = some
      { pinName := "D4", gpioNumber := 4, mode := VwireGPIOMode.output
      , readInterval := 300, lastRead := 0, lastValue := -32768
      , active := true, flags := 0 } :=
  ⟨runGpioOps_aux os initGpio hs namesUnique_init, by decide, by decide, by decide⟩

/-- Claim C8, counterexample: adding the 6-character name "D1234X"
twice creates two distinct active slots, both storing the truncated
uppercased name "D1234", and getPinCount becomes 2 — so after a general
addPin sequence a pin name does not always map to at most one active
slot; the invariant fails for names longer than the 5-character name
buffer. -/
theorem pinNameDuplicateActiveSlots :
    getPinCount c8dup = 2 ∧
    c8dup.pins.countP (fun p => p.active) = 2 ∧
    (c8dup.pins.get? 0).map VwireGPIOPin.pinName = some "D1234" ∧
    (c8dup.pins.get? 1).map VwireGPIOPin.pinName = some "D1234" ∧
    (c8dup.pins.get? 0).map VwireGPIOPin.active = some true ∧
    (c8dup.pins.get? 1).map VwireGPIOPin.active = some true ∧
    "D1234X".length = 6 := by decide

/-- Claim C9: for an active pin configured INPUT, INPUT_PULLUP or
ANALOG_INPUT, poll skips the pin entirely while its per-pin read
interval has not elapsed; on a due read it publishes exactly when the
raw value differs from the recorded lastValue (stamping lastRead
either way); and the first read after the pin is added always
publishes, because lastValue starts at the -32768 never-read sentinel,
below any nonnegative hardware reading. -/
theorem changeOnlyPublication (p : VwireGPIOPin) (readFn : VwireGPIOPin → Int)
    (now : Nat) (hact : p.active = true) (hmode : isInputMode p.mode = true) :
    (usub32 now p.lastRead < p.readInterval →
      poll now readFn { pins := p :: List.replicate 15 emptyGpioPin, count := 1 } =
        ({ pins := p :: List.replicate 15 emptyGpioPin, count := 1 }, [])) ∧
    (p.readInterval ≤ usub32 now p.lastRead → readFn p = p.lastValue →
      poll now readFn { pins := p :: List.replicate 15 emptyGpioPin, count := 1 } =
        ({ pins := { p with lastRead := now % U32 } :: List.replicate 15 emptyGpioPin
         , count := 1 }, [])) ∧
    (p.readInterval ≤ usub32 now p.lastRead → readFn p ≠ p.lastValue →
      poll now readFn { pins := p :: List.replicate 15 emptyGpioPin, count := 1 } =
        ({ pins := { p with lastRead := now % U32, lastValue := toInt16 (readFn p) } ::
            List.replicate 15 emptyGpioPin
         , count := 1 }, [(p.pinName, readFn p)])) ∧
    (p.lastValue = -32768 → 0 ≤ readFn p → readFn p ≠ p.lastValue) := by
  refine ⟨?_, ?_, ?_, ?_⟩
  · intro hskip
    simp [poll, pollStep, hact, hmode, List.map_replicate, emptyGpioPin,
          hskip]
  · intro hdue hsame
    simp [poll, pollStep, hact, hmode, List.map_replicate, emptyGpioPin,
          Nat.not_lt.mpr hdue, hsame]
    
  · intro hdue hdiff
    simp [poll, pollStep, hact, hmode, List.map_replicate, emptyGpioPin,
          Nat.not_lt.mpr hdue, hdiff]
  · intro hsent hnn
    rw [hsent]
    omega

lemma toInt16_eq_self (v : Int) (h1 : -32768 ≤ v) (h2 : v ≤ 32767) :
    toInt16 v = v := by
  unfold toInt16
  omega

/-- Claim C10, counterexample: for the out-of-range value v = 65791 the
recorded value is the int16 truncation 255, which lies inside [0,255]
and equals the clamped duty 255 the hardware received — refuting the
claim that for every v outside [0,255] getPinValue returns a value
outside [0,255] differing from what the hardware received. -/
theorem rawValueRecordedCounterexample :
    ((65791 : Int) < 0 ∨ (255 : Int) < 65791) ∧
    (handleCommand "D2" 65791 (c5g VwireGPIOMode.output)).2.1 = true ∧
    getPinValue "D2" (handleCommand "D2" 65791 (c5g VwireGPIOMode.output)).1 = 255 ∧
    (0 ≤ (255 : Int) ∧ (255 : Int) ≤ 255) ∧
    (handleCommand "D2" 65791 (c5g VwireGPIOMode.output)).2.2 =
      [GpioHwEvent.ledcSetup 0 5000 8, GpioHwEvent.ledcAttach 2 0,
       GpioHwEvent.ledcWrite 0 255] := by decide

/-- Claim C10 (amended): after handleCommand(name, v) on an OUTPUT pin
the recorded value returned by getPinValue is the raw v truncated to a
signed 16-bit field, not the [0,255]-clamped value written to hardware;
for v in [256, 32767] getPinValue returns v, outside [0,255], while the
hardware received PWM duty 255, and for v in [-32768, -1] it returns
the negative v while the hardware received a digital LOW. -/
theorem rawValueRecordedNotClamped (v : Int) :
    getPinValue "D2" (handleCommand "D2" v (c5g VwireGPIOMode.output)).1 = toInt16 v ∧
    (256 ≤ v → v ≤ 32767 →
      getPinValue "D2" (handleCommand "D2" v (c5g VwireGPIOMode.output)).1 = v ∧
      (255 : Int) < getPinValue "D2" (handleCommand "D2" v (c5g VwireGPIOMode.output)).1 ∧
      (handleCommand "D2" v (c5g VwireGPIOMode.output)).2.2 =
        [GpioHwEvent.ledcSetup 0 5000 8, GpioHwEvent.ledcAttach 2 0,
         GpioHwEvent.ledcWrite 0 255]) ∧
    (-32768 ≤ v → v ≤ -1 →
      getPinValue "D2" (handleCommand "D2" v (c5g VwireGPIOMode.output)).1 = v ∧
      getPinValue "D2" (handleCommand "D2" v (c5g VwireGPIOMode.output)).1 < 0 ∧
      (handleCommand "D2" v (c5g VwireGPIOMode.output)).2.2 =
        [GpioHwEvent.digitalWrite 2 false]) := by
  have hcmd : handleCommand "D2" v (c5g VwireGPIOMode.output) =
      ({ pins := { (writeHardware (pinD2 VwireGPIOMode.output) 0 v).1 with
            lastValue := toInt16 v } :: List.replicate 15 emptyGpioPin, count := 1 },
       true, (writeHardware (pinD2 VwireGPIOMode.output) 0 v).2) := by
    rw [c5g_eq]
    rfl
  rw [hcmd]
  by_cases hv : constrain v 0 255 ≤ 1
  · have hwh : writeHardware (pinD2 VwireGPIOMode.output) 0 v =
        (pinD2 VwireGPIOMode.output,
         [GpioHwEvent.digitalWrite 2 (constrain v 0 255 != 0)]) := by
      simp [writeHardware, pinD2, hv]
    rw [hwh]
    have hval : getPinValue "D2"
        { pins := { pinD2 VwireGPIOMode.output with lastValue := toInt16 v } ::
            List.replicate 15 emptyGpioPin, count := 1 } = toInt16 v := by
      rfl
    refine ⟨hval, ?_, ?_⟩
    · intro h1 h2
      exact absurd hv (by unfold constrain; split_ifs <;> omega)
    · intro h1 h2
      have hc0 : constrain v 0 255 = 0 := by unfold constrain; split_ifs <;> omega
      refine ⟨by rw [hval]; exact toInt16_eq_self v h1 (by omega), ?_, ?_⟩
      · rw [hval, toInt16_eq_self v h1 (by omega)]
        omega
      · rw [hc0]
        rfl
  · have hwh : writeHardware (pinD2 VwireGPIOMode.output) 0 v =
        ({ pinD2 VwireGPIOMode.output with flags := 1 },
         [GpioHwEvent.ledcSetup 0 5000 8, GpioHwEvent.ledcAttach 2 0,
          GpioHwEvent.ledcWrite 0 (constrain v 0 255)]) := by
      simp [writeHardware, pinD2, hv]
    rw [hwh]
    have hval : getPinValue "D2"
        { pins := { pinD2 VwireGPIOMode.output with flags := 1, lastValue := toInt16 v } ::
            List.replicate 15 emptyGpioPin, count := 1 } = toInt16 v := by
      rfl
    refine ⟨hval, ?_, ?_⟩
    · intro h1 h2
      have hc255 : constrain v 0 255 = 255 := by unfold constrain; split_ifs <;> omega
      refine ⟨by rw [hval]; exact toInt16_eq_self v (by omega) h2, ?_, ?_⟩
      · rw [hval, toInt16_eq_self v (by omega) h2]
        omega
      · rw [hc255]
    · intro h1 h2
      exact absurd hv (by unfold constrain; split_ifs <;> omega)

/-- Claim C6: the timer due-check computes elapsed time with unsigned
32-bit subtraction, so for any lastTriggered L near the maximum counter
value, a timer whose interval I elapses exactly as the counter wraps to
(L + I) mod 2^32 is still reported as due exactly once: run at that
instant fires it and updates lastTriggered, and a second run at the
same instant fires nothing. -/
theorem timerWraparoundDueOnce (L I : Nat) (hL : L < U32) (hI : 0 < I)
    (hIU : I < U32) :
    runTimer ((L + I) % U32) (c6state I L 0) =
      (c6state I ((L + I) % U32) 1, [0]) ∧
    (runTimer ((L + I) % U32) (c6state I ((L + I) % U32) 1)).2 = [] := by
  have hdue : I ≤ usub32 ((L + I) % U32) L := by rw [usub32_wrap L I hL hIU]
  have hmod : (L + I) % U32 % U32 = (L + I) % U32 := Nat.mod_mod_of_dvd _ dvd_rfl
  have hnotdue : ¬ I ≤ usub32 ((L + I) % U32) ((L + I) % U32) := by
    unfold usub32 U32 at *
    omega
  constructor
  · simp [runTimer, timerStep, c6state, c6slot, hdue, hmod, List.map_replicate,
          emptyTimerSlot, runForever, List.range_succ, List.filter]
  · simp [runTimer, timerStep, c6state, c6slot, hnotdue, List.map_replicate,
          emptyTimerSlot, List.range_succ, List.filter]

lemma runTimer_empty (now : Nat) : runTimer now initTimer = (initTimer, []) := by
  unfold runTimer initTimer maxTimers
  simp [timerStep, emptyTimerSlot, List.map_replicate]
  decide

lemma runTimer_c7_fire (N : Int) (I c last now : Nat)
    (hdue : I ≤ usub32 now last) (hno : ¬ N ≤ (c : Int) + 1) :
    runTimer now (c7state N I c last) = (c7state N I (c + 1) (now % U32), [0]) := by
  simp [runTimer, c7state, c7slot, timerStep, hdue, hno, List.map_replicate,
        emptyTimerSlot, List.range_succ]

lemma runTimer_c7_drop (N : Int) (I c last now : Nat)
    (hdue : I ≤ usub32 now last) (hc : 0 ≤ (c : Int)) (hd : N ≤ (c : Int) + 1)
    (hN : 0 < N) :
    runTimer now (c7state N I c last) = (initTimer, [0]) := by
  have hnf : N ≠ runForever := by unfold runForever; omega
  simp [runTimer, c7state, c7slot, timerStep, hdue, hd, hnf, List.map_replicate,
        emptyTimerSlot, List.range_succ, initTimer, maxTimers]

lemma runTimer_c7_skip (N : Int) (I c last now : Nat)
    (hnd : ¬ I ≤ usub32 now last) :
    runTimer now (c7state N I c last) = (c7state N I c last, []) := by
  simp [runTimer, c7state, c7slot, timerStep, hnd, List.map_replicate,
        emptyTimerSlot, List.range_succ]

lemma runTrace_cons (s : VwireTimer) (t : Nat) (ts : List Nat) :
    runTrace s (t :: ts) =
      ((runTrace (runTimer t s).1 ts).1,
       (runTimer t s).2 ++ (runTrace (runTimer t s).1 ts).2) := rfl

lemma runTrace_nil (s : VwireTimer) : runTrace s [] = (s, []) := rfl

lemma c7_trace_seg (N I : Nat) (hI : 0 < I) (hU : (N + 1) * I < U32) :
    ∀ d c : Nat, c + d = N → 1 ≤ d →
    runTrace (c7state (N : Int) I c (c * I))
        ((List.range' (c + 1) d).map (fun k => k * I)) =
      (initTimer, List.replicate d 0) := by
  intro d
  induction d with
  | zero => intro c _ h1; omega
  | succ e ih =>
    intro c hc _
    rw [List.range'_succ, List.map_cons, runTrace_cons]
    have hcb : (c + 1) * I ≤ (N + 1) * I := Nat.mul_le_mul_right I (by omega)
    have hlt : (c + 1) * I < U32 := lt_of_le_of_lt hcb hU
    have heq : (c + 1) * I = c * I + I := by ring
    have hdue : I ≤ usub32 ((c + 1) * I) (c * I) := by
      rw [usub32_sub ((c + 1) * I) (c * I) (by omega) hlt]
      omega
    cases e with
    | zero =>
      have hcN : c + 1 = N := by omega
      have hdrop := runTimer_c7_drop (N : Int) I c (c * I) ((c + 1) * I) hdue
        (by positivity) (by push_cast; omega) (by push_cast; omega)
      rw [hdrop]
      simp [runTrace_nil]
    | succ f =>
      have hfire := runTimer_c7_fire (N : Int) I c (c * I) ((c + 1) * I) hdue
        (by push_cast; omega)
      rw [hfire]
      have hmod : (c + 1) * I % U32 = (c + 1) * I := Nat.mod_eq_of_lt hlt
      rw [hmod]
      rw [ih (c + 1) (by omega) (by omega)]
      simp [List.replicate_succ]

lemma toInt32_small (n : Nat) (h : n < 2147483648) : toInt32 n = (n : Int) := by
  unfold toInt32
  omega

lemma setTimerN_zero (interval : Nat) (cb : Bool) (now : Nat) (s : VwireTimer) :
    setTimerN interval cb 0 now s = (s, timerInvalid) := rfl

lemma setTimerN_eq (I N : Nat) (hN : 1 ≤ N) (hN31 : N < 2147483648)
    (hI : I < U32) :
    setTimerN I true N 0 initTimer = (c7state (N : Int) I 0 0, 0) := by
  have hNU : N % U32 = N := Nat.mod_eq_of_lt (by unfold U32 at *; omega)
  have hIU : I % U32 = I := Nat.mod_eq_of_lt hI
  have hcast : toInt32 (N % U32) = (N : Int) := by rw [hNU]; exact toInt32_small N hN31
  have hNne : ¬ N = 0 := by omega
  simp [setTimerN, hNU, hNne, createTimer, findFreeTimerSlot, initTimer, maxTimers,
        List.replicate_succ, List.findIdx?_cons, emptyTimerSlot, timerInvalid,
        hcast, hIU, setCallbackAt, c7state, c7slot]
  exact toInt32_small N hN31

lemma c7inv_step (N : Int) (I : Nat) (s : VwireTimer) (f : Nat) (u : Nat)
    (h : C7Inv N I s f) :
    C7Inv N I (runTimer u s).1 (f + (runTimer u s).2.count 0) := by
  rcases h with ⟨c, last, hcN, hf, hs⟩ | ⟨hf, hs⟩
  · subst hs
    by_cases hdue : I ≤ usub32 u last
    · by_cases hdrop : N ≤ (c : Int) + 1
      · rw [runTimer_c7_drop N I c last u hdue (by positivity) hdrop (by omega)]
        right
        constructor
        · simp [List.count_cons]
          push_cast
          omega
        · rfl
      · rw [runTimer_c7_fire N I c last u hdue hdrop]
        left
        exact ⟨c + 1, u % U32, by push_cast; omega, by simp [List.count_cons]; omega, rfl⟩
    · rw [runTimer_c7_skip N I c last u hdue]
      left
      exact ⟨c, last, hcN, by simp [hf], rfl⟩
  · subst hs
    rw [runTimer_empty u]
    right
    exact ⟨by simpa using hf, rfl⟩

lemma c7inv_trace (N : Int) (I : Nat) (ts : List Nat) :
    ∀ (s : VwireTimer) (f : Nat), C7Inv N I s f →
    C7Inv N I (runTrace s ts).1 (f + (runTrace s ts).2.count 0) := by
  induction ts with
  | nil => intro s f h; simpa [runTrace_nil] using h
  | cons t rest ih =>
    intro s f h
    rw [runTrace_cons]
    have h1 := c7inv_step N I s f t h
    have h2 := ih (runTimer t s).1 (f + (runTimer t s).2.count 0) h1
    simpa [List.count_append, Nat.add_assoc] using h2

/-- Claim C7 (amended to 1 ≤ N < 2^31, the range where the (int)numRuns
cast is value-preserving): a timer created by setTimer(interval,
callback, N) fires its callback exactly N times — the N due ticks each
fire it once, after which the table is back to its initial state and
isValid(id) is false, and run on that state never fires anything;
across an arbitrary tick sequence it fires at most N times, strictly
fewer while the slot is still valid; setTimer with numRuns = 0 is
rejected with the invalid sentinel without allocating a slot. -/
theorem timerFiresExactlyN (N I : Nat) (hN : 1 ≤ N) (hN31 : N < 2147483648)
    (hI : 0 < I) (hU : (N + 1) * I < U32) :
    (setTimerN I true N 0 initTimer).2 = 0 ∧
    runTrace (setTimerN I true N 0 initTimer).1
        ((List.range' 1 N).map (fun k => k * I)) = (initTimer, List.replicate N 0) ∧
    isValidId 0 (runTrace (setTimerN I true N 0 initTimer).1
        ((List.range' 1 N).map (fun k => k * I))).1 = false ∧
    (∀ u, runTimer u initTimer = (initTimer, [])) ∧
    (∀ ts : List Nat,
      (runTrace (setTimerN I true N 0 initTimer).1 ts).2.count 0 ≤ N ∧
      (isValidId 0 (runTrace (setTimerN I true N 0 initTimer).1 ts).1 = true →
        (runTrace (setTimerN I true N 0 initTimer).1 ts).2.count 0 < N)) ∧
    (∀ (interval2 : Nat) (cb : Bool) (now2 : Nat) (s2 : VwireTimer),
      setTimerN interval2 cb 0 now2 s2 = (s2, timerInvalid)) := by
  have hIle : I ≤ (N + 1) * I := Nat.le_mul_of_pos_left I (by omega)
  have hIU : I < U32 := by omega
  have hset := setTimerN_eq I N hN hN31 hIU
  have htrace : runTrace (setTimerN I true N 0 initTimer).1
      ((List.range' 1 N).map (fun k => k * I)) = (initTimer, List.replicate N 0) := by
    rw [hset]
    have := c7_trace_seg N I hI hU N 0 (by omega) (by omega)
    simpa using this
  refine ⟨by rw [hset], htrace,
          by rw [htrace]; show isValidId 0 initTimer = false; decide,
          runTimer_empty, ?_,
          fun i2 cb n2 s2 => setTimerN_zero i2 cb n2 s2⟩
  intro ts
  have hbase : C7Inv (N : Int) I (setTimerN I true N 0 initTimer).1 0 := by
    rw [hset]
    exact Or.inl ⟨0, 0, by push_cast; omega, rfl, rfl⟩
  have hinv := c7inv_trace (N : Int) I ts (setTimerN I true N 0 initTimer).1 0 hbase
  simp only [Nat.zero_add] at hinv
  rcases hinv with ⟨c, last, hcN, hf, hs⟩ | ⟨hf, hs⟩
  · constructor
    · omega
    · intro _
      omega
  · constructor
    · omega
    · intro hvalid
      rw [hs] at hvalid
      exact absurd hvalid (by decide)

/-- Claim C7, counterexample: setTimer stores maxRuns as (int)numRuns,
so numRuns = 2^31 wraps to -2^31 and the timer is auto-deleted after
its first fire (slot back to the constructor state, isValid false) —
it does not fire 2^31 times, refuting the claim for every N ≥ 1. -/
theorem timerLargeNCounterexample :
    (setTimerN 5 true 2147483648 0 initTimer).2 = 0 ∧
    (runTimer 5 (setTimerN 5 true 2147483648 0 initTimer).1).2 = [0] ∧
    (runTimer 5 (setTimerN 5 true 2147483648 0 initTimer).1).1 = initTimer ∧
    isValidId 0 (runTimer 5 (setTimerN 5 true 2147483648 0 initTimer).1).1 = false ∧
    (2147483648 : Nat) ≠ 1 := by decide

/-- Witness for reliableRetryGiveUp at the default ACK timeout 5000 ms. -/
theorem reliableRetryGiveUp_witness :
    0 < 5000 ∧ 4 * 5000 < U32 ∧ getPendingCount (c1r4 5000).1 = 0 :=
  ⟨by decide, by decide, (reliableRetryGiveUp 5000 (by decide) (by decide)).2.2.2.2.2.1⟩

/-- Witness for ackFreesSlotExactlyOnce at the non-matching id "nomatch". -/
theorem ackFreesSlotExactlyOnce_witness :
    handleAck "nomatch" true c2s1 = (c2s1, []) ∧ getPendingCount c2s2 = 0 :=
  have h := ackFreesSlotExactlyOnce "nomatch" (by decide)
  ⟨h.2.2.2.2, h.2.1⟩

/-- Witness for msgIdUniqueBeforeCounterWrap at the reachable state after
one send. -/
theorem msgIdUniqueBeforeCounterWrap_witness :
    IdsDistinct (sendWithReliableDelivery 0 "42" 0 (initVwire 5000 3 "dev")).1.pendingMessages :=
  msgIdUniqueBeforeCounterWrap 1 _
    (Reach.send 0 _ 0 "42" 0 (Reach.init 5000 3 "dev")) (by decide)

/-- Witness for smartWriteThreshold at mode OUTPUT and value 300. -/
theorem smartWriteThreshold_witness :
    (handleCommand "D2" 300 (c5g VwireGPIOMode.output)).2.1 = true ∧
    ((handleCommand "D2" 300 (c5g VwireGPIOMode.output)).2.2.any isPwmEv = true ↔
      (2 ≤ constrain 300 0 255 ∧ constrain 300 0 255 ≤ 255)) :=
  have h := smartWriteThreshold VwireGPIOMode.output (Or.inl rfl) 300
  ⟨h.1, h.2.2.1⟩

/-- Witness for pinNameCaseInsensitiveUnique on the two-operation
sequence of the claim. -/
theorem pinNameCaseInsensitiveUnique_witness :
    NamesUnique (runGpioOps
      [GpioOp.add "d4" VwireGPIOMode.input 500,
       GpioOp.add "D4" VwireGPIOMode.output 300]) ∧
    getPinCount c8d4 = 1 :=
  have h := pinNameCaseInsensitiveUnique
    [GpioOp.add "d4" VwireGPIOMode.input 500,
     GpioOp.add "D4" VwireGPIOMode.output 300]
    (by intro o ho
        simp [List.mem_cons] at ho
        rcases ho with rfl | rfl <;> (unfold shortName; decide))
  ⟨h.1, h.2.1⟩

/-- Witness for changeOnlyPublication: a freshly added INPUT pin, due at
time 2000 with raw reading 1, publishes that first reading. -/
theorem changeOnlyPublication_witness :
    poll 2000 (fun _ => 1)
      { pins := pinD2 VwireGPIOMode.input :: List.replicate 15 emptyGpioPin
      , count := 1 } =
    ({ pins := { pinD2 VwireGPIOMode.input with
          lastRead := 2000 % U32, lastValue := toInt16 1 } ::
            List.replicate 15 emptyGpioPin
     , count := 1 }, [("D2", 1)]) :=
  (changeOnlyPublication (pinD2 VwireGPIOMode.input) (fun _ => 1) 2000
    rfl rfl).2.2.1 (by decide) (by decide)

/-- Witness for rawValueRecordedNotClamped at the out-of-range value 300. -/
theorem rawValueRecordedNotClamped_witness :
    getPinValue "D2" (handleCommand "D2" 300 (c5g VwireGPIOMode.output)).1 = 300 ∧
    (handleCommand "D2" 300 (c5g VwireGPIOMode.output)).2.2 =
      [GpioHwEvent.ledcSetup 0 5000 8, GpioHwEvent.ledcAttach 2 0,
       GpioHwEvent.ledcWrite 0 255] :=
  have h := rawValueRecordedNotClamped 300
  ⟨(h.2.1 (by decide) (by decide)).1, (h.2.1 (by decide) (by decide)).2.2⟩

/-- Witness for timerWraparoundDueOnce: the counter is 5 ticks from
wrapping, the 10 ms interval elapses exactly as it wraps to 5. -/
theorem timerWraparoundDueOnce_witness :
    runTimer ((4294967291 + 10) % U32) (c6state 10 4294967291 0) =
      (c6state 10 ((4294967291 + 10) % U32) 1, [0]) :=
  (timerWraparoundDueOnce 4294967291 10 (by decide) (by decide) (by decide)).1

/-- Witness for timerFiresExactlyN at N = 3 runs of a 7 ms timer. -/
theorem timerFiresExactlyN_witness :
    runTrace (setTimerN 7 true 3 0 initTimer).1
        ((List.range' 1 3).map (fun k => k * 7)) =
      (initTimer, List.replicate 3 0) :=
  (timerFiresExactlyN 3 7 (by decide) (by decide) (by decide) (by decide)).2.1

end Vwire
